import Mathlib

/-!
# gpu.fft~ / gpu.ifft~ (src/gpu.fft~.c)

A shallow embedding of the Max/MSP external `gpu.fft~.c` and a verification of
its power-of-two coercion, its attribute setters, its block-boundary
evaluation `gpu_fft_dsp` and its per-block routine `gpu_fft_perform`.

Modelling conventions

* `unsigned int` is `Nat` reduced modulo `2 ^ 32`; `long` is `Int`.  No `long`
  operation of the source leaves the 64-bit range on the values it meets
  (every transform length is below `2 ^ 32`), so the model is exact for an
  LP64 target, and for an ILP32 target as long as the lengths stay below
  `2 ^ 31`; vector sizes (`s_n`) are non-negative counts and are `Nat`.
* `t_sample` and the two components of `clFFT_Complex` are the same scalar
  type (`float` in the source); scalars are exact rationals here.
* The two compile-time switches of the source are the two fields of `Build`.
* OpenCL, the clFFT library, the C allocator and the Max host are outside the
  repository: their results are supplied by the records `OpenCL`, `CLQueue`
  and `MaxHost`, whose fields are the calls the source makes.
* Pointers and handles carry the liveness of what they refer to (`Ptr`), so
  that a freed scratch buffer or a destroyed plan is visible in the state.
-/

namespace GpuFft

/-! ## Machine integers -/

/-- Number of values of an `unsigned int`. -/
def UINT_MOD : Nat := 2 ^ 32

/-- The function `nextPowerOf2` of `gpu.fft~.c`, lines 213-224, on a 32-bit unsigned
argument: decrement, smear the top bit to the right, increment, each step in
wrap-around arithmetic. -/
def nextPowerOf2 (x : Nat) : Nat :=
  let x := (x + (UINT_MOD - 1)) % UINT_MOD
  let x := x ||| (x >>> 1)
  let x := x ||| (x >>> 2)
  let x := x ||| (x >>> 4)
  let x := x ||| (x >>> 8)
  let x := x ||| (x >>> 16)
  let x := (x + 1) % UINT_MOD
  x

/-- Bit `i` of `z` is set exactly when some bit of `y` in the window `[i, i+n)` is set. -/
def BitWindow (n z y : Nat) : Prop :=
  ∀ i, z.testBit i = true ↔ ∃ j, i ≤ j ∧ j < i + n ∧ y.testBit j = true

/-- Conversion of a `long` to `unsigned int` (reduction modulo `2 ^ 32`). -/
def uint_of_long (v : Int) : Nat := (v % (UINT_MOD : Int)).toNat

/-! ## Build configuration and data model -/

/-- The preprocessor symbols the source tests with `#ifdef`. -/
structure Build where
  FORWARD_EXTERNAL : Bool
  INVERSE_EXTERNAL : Bool
deriving DecidableEq

/-- The build of `gpu.fft~`. -/
def forwardBuild : Build := ⟨true, false⟩

/-- The build of `gpu.ifft~`. -/
def inverseBuild : Build := ⟨false, true⟩

/-- Scalar type of audio samples and of the complex components. -/
abbrev t_sample := ℚ

/-- A C pointer or library handle together with the liveness of its referent. -/
inductive Ptr (β : Type) where
  | null : Ptr β
  | live (obj : β) : Ptr β
  | released : Ptr β
deriving DecidableEq

/-- The test `!p` of the source. -/
def Ptr.isNull {β : Type} : Ptr β → Bool
  | .null => true
  | _ => false

/-- Effect of `free`, `clFFT_DestroyPlan` or a `clRelease...` call on the referent. -/
def Ptr.release {β : Type} : Ptr β → Ptr β
  | .null => .null
  | _ => .released

/-- The value `NULL` or a fresh handle returned by a creating call. -/
def Ptr.ofOption {β : Type} : Option β → Ptr β
  | none => .null
  | some b => .live b

/-- Modelled from the spec: the struct `clFFT_Complex`, declared in clFFT.h and not under
src/; the spec's "interleaved (real, imaginary pairs contiguous) layout". The source reads
and writes its members `real` and `imag`. -/
structure clFFT_Complex where
  real : t_sample
  imag : t_sample
deriving DecidableEq

/-- The struct `cl_core` of lines 35-42. Context and queue carry an identifying number. -/
structure cl_core where
  device_type : Nat
  num_devices : Nat
  device_id : Nat
  context : Ptr Nat
  queue : Ptr Nat
  gMemSize : Nat
deriving DecidableEq

/-- The struct `clfft_data` of lines 44-50. `dim_x` is `dim.x`; a live plan carries the
length it was compiled for, a live device buffer the number of complex elements it
holds, the live scratch buffer its elements. -/
structure clfft_data where
  dim_x : Nat
  data_i : Ptr (List clFFT_Complex)
  plan : Ptr Nat
  data_in : Ptr Nat
  data_out : Ptr Nat
deriving DecidableEq

/-- The struct `t_gpu_fft` of lines 52-66, without the host's object header. The member
`one_over_fft_size` exists only without `FORWARD_EXTERNAL`; with it the field is inert. -/
structure t_gpu_fft where
  core : cl_core
  fft_data : clfft_data
  fft_size : Int
  cl_device : Int
  new_device : Int
  one_over_fft_size : ℚ
  fft_size_has_changed : Bool
  has_valid_device : Bool
deriving DecidableEq

/-- The members of the host's struct `t_signal` that the source uses: the vector size and
the memory its vector pointer refers to. -/
structure t_signal where
  s_n : Nat
  s_vec : List t_sample
deriving DecidableEq

/-- An atom of the host, as far as the setters inspect it. -/
inductive t_atom where
  | A_LONG (v : Int) : t_atom
  | A_FLOAT : t_atom
  | A_SYM : t_atom
deriving DecidableEq

/-- Observable calls made by the modelled functions, in order. -/
inductive Event where
  | object_error (msg : String) : Event
  | object_post (msg : String) : Event
  | clReleaseContext : Event
  | clReleaseCommandQueue : Event
  | clClearFFTData : Event
  | clResizeFFTData (length : Nat) : Event
  | dsp_add (w2 : List t_sample) (w3 : Nat) (w4 : List t_sample) (w5 : Nat) : Event
deriving DecidableEq

/-- Enumeration of lines 27-33. -/
def DEVICE_DEFAULT : Int := 0
/-- Enumeration of lines 27-33. -/
def DEVICE_CPU : Int := 1
/-- Enumeration of lines 27-33. -/
def DEVICE_GPU : Int := 2
/-- Enumeration of lines 27-33. -/
def DEVICE_ACCELERATOR : Int := 3
/-- Enumeration of lines 27-33. -/
def DEVICE_ALL : Int := 4

/-- Constant of cl.h. -/
def CL_DEVICE_TYPE_DEFAULT : Nat := 1
/-- Constant of cl.h. -/
def CL_DEVICE_TYPE_CPU : Nat := 2
/-- Constant of cl.h. -/
def CL_DEVICE_TYPE_GPU : Nat := 4
/-- Constant of cl.h. -/
def CL_DEVICE_TYPE_ALL : Nat := 4294967295

/-- Constant of the host SDK. -/
def MAX_ERR_NONE : Int := 0
/-- Constant of the host SDK. -/
def MAX_ERR_GENERIC : Int := -1

/-- Modelled from the spec: the size in bytes of a `t_sample`, declared in the host SDK
and not under src/; a `float`, so that, as the spec has it, "a transform of length L
produces 2·L output scalars". -/
def sizeof_t_sample : Nat := 4
/-- Modelled from the spec: the size in bytes of a `clFFT_Complex`, two `float`s. -/
def sizeof_clFFT_Complex : Nat := 8

/-! ## External calls -/

/-- Results of the OpenCL, clFFT and allocator calls made while a device session and a
buffer set are built. A creating call yields `none` for `NULL`. -/
structure OpenCL where
  clGetDeviceIDs : Nat → Int × Nat × Nat
  clCreateContext : Nat → Option Nat × Int
  clCreateCommandQueue : Ptr Nat → Nat → Option Nat × Int
  clGetDeviceInfo : Nat → Int × Nat
  malloc : Int → Bool
  realloc : Int → Bool
  fresh : Nat → clFFT_Complex
  clFFT_CreatePlan : Ptr Nat → Nat → Bool × Int
  clCreateBuffer : Ptr Nat → Int → Bool

/-- Results of the host calls made by `gpu_fft_dsp`: whether `t_resizebytes` succeeds
and the contents of the bytes it adds. -/
structure MaxHost where
  t_resizebytes : Nat → Nat → Bool
  fresh : Nat → t_sample

/-- Results of the three command-queue calls of `gpu_fft_perform`, as functions of the
scratch elements handed to the device; `clEnqueueReadBuffer` also yields the elements
read back. -/
structure CLQueue where
  clEnqueueWriteBuffer : List clFFT_Complex → Int
  clFFT_ExecuteInterleaved : List clFFT_Complex → Int
  clEnqueueReadBuffer : List clFFT_Complex → Int × (Nat → clFFT_Complex)

/-- A block of `n` elements that keeps the old contents where they exist. -/
def resizeList {β : Type} (old : List β) (n : Nat) (fill : Nat → β) : List β :=
  (List.range n).map (fun i => old.getD i (fill i))

/-! ## Device session and buffer set (lines 80-210) -/

/-- The automatic variable `cl_core core` of `gpu_fft_dsp` before `clSetupRoutine`
fills it; every field but `device_type` is written before it is read. -/
def cl_core.uninit : cl_core :=
  { device_type := 0, num_devices := 0, device_id := 0, context := .null, queue := .null,
    gMemSize := 0 }

/-- The function `clSetupRoutine`, lines 80-112: returns the status and the filled `cl_core`. -/
def clSetupRoutine (cl : OpenCL) (core : cl_core) : Int × cl_core :=
  let r := cl.clGetDeviceIDs core.device_type
  let core := { core with device_id := r.2.1, num_devices := r.2.2 }
  if r.1 ≠ 0 then (-1, core)
  else
    let c := cl.clCreateContext core.device_id
    let core := { core with context := Ptr.ofOption c.1 }
    if core.context.isNull || decide (c.2 ≠ 0) then (-1, core)
    else
      let q := cl.clCreateCommandQueue core.context core.device_id
      let core := { core with queue := Ptr.ofOption q.1 }
      if core.queue.isNull || decide (q.2 ≠ 0) then
        (-1, { core with context := core.context.release })
      else
        let i := cl.clGetDeviceInfo core.device_id
        let core := { core with gMemSize := i.2 }
        if i.1 ≠ 0 then
          (-2, { core with context := core.context.release, queue := core.queue.release })
        else (0, core)

/-- The function `clSetupFFTData`, lines 114-152. -/
def clSetupFFTData (cl : OpenCL) (context : Ptr Nat) (data : clfft_data) (length : Int) :
    Int × clfft_data :=
  let n_x := uint_of_long length
  let data := { data with
    data_i := if cl.malloc length then .live (resizeList [] length.toNat cl.fresh) else .null }
  if data.data_i.isNull then (-1, data)
  else
    let p := cl.clFFT_CreatePlan context n_x
    let data := { data with plan := if p.1 then .live n_x else .null }
    if data.plan.isNull || decide (p.2 ≠ 0) then
      (-1, { data with data_i := data.data_i.release })
    else
      let data := { data with
        data_in := if cl.clCreateBuffer context length then .live length.toNat else .null }
      if data.data_in.isNull then
        (-1, { data with plan := data.plan.release, data_i := data.data_i.release })
      else (0, { data with data_out := data.data_in, dim_x := n_x })

/-- The call `realloc(p, length * sizeof(clFFT_Complex))`. -/
def realloc_data_i (cl : OpenCL) (p : Ptr (List clFFT_Complex)) (length : Int) :
    Ptr (List clFFT_Complex) :=
  if cl.realloc length then
    match p with
    | .live old => .live (resizeList old length.toNat cl.fresh)
    | _ => .live (resizeList [] length.toNat cl.fresh)
  else .null

/-- The function `clResizeFFTData`, lines 154-196. -/
def clResizeFFTData (cl : OpenCL) (context : Ptr Nat) (data : clfft_data) (length : Int) :
    Int × clfft_data :=
  let n_x := uint_of_long length
  let data := { data with plan := data.plan.release }
  let data := { data with data_in := data.data_in.release, data_out := data.data_out.release }
  let data := { data with data_i := realloc_data_i cl data.data_i length }
  if data.data_i.isNull then (-1, data)
  else
    let p := cl.clFFT_CreatePlan context n_x
    let data := { data with plan := if p.1 then .live n_x else .null }
    if data.plan.isNull || decide (p.2 ≠ 0) then
      (-1, { data with data_i := data.data_i.release })
    else
      let data := { data with
        data_in := if cl.clCreateBuffer context length then .live length.toNat else .null }
      if data.data_in.isNull then
        (-1, { data with plan := data.plan.release, data_i := data.data_i.release })
      else (0, { data with data_out := data.data_in, dim_x := n_x })

/-- The function `clClearFFTData`, lines 198-210. -/
def clClearFFTData (data : clfft_data) : clfft_data :=
  { data with
    data_i := data.data_i.release
    plan := data.plan.release
    data_in := data.data_in.release
    data_out := if data.data_in.isNull then data.data_out else data.data_out.release }

/-! ## Attribute setters (lines 459-533) -/

/-- The function `attr_set_fft_size`, lines 459-484. `argv` is `none` for a null pointer,
otherwise the first atom. Returns the status, the object and the messages posted. -/
def attr_set_fft_size (b : Build) (x : t_gpu_fft) (argc : Int) (argv : Option t_atom) :
    Int × t_gpu_fft × List Event :=
  match decide (argc > 0), argv with
  | true, some a =>
    match a with
    | .A_LONG v =>
      let next : Int := (nextPowerOf2 (uint_of_long v) : Nat)
      let ev := if v ≠ next then [Event.object_post "Setting to the next power of 2: %d"] else []
      let x := { x with fft_size := next }
      let x := if b.INVERSE_EXTERNAL then
        { x with one_over_fft_size := 1 / (x.fft_size : ℚ) } else x
      (MAX_ERR_NONE, x, ev)
    | _ => (MAX_ERR_NONE, x, [])
  | _, _ => (MAX_ERR_GENERIC, x, [])

/-- The `switch` of `attr_set_device`, lines 499-522: the OpenCL device type for a device
number, and the message posted. -/
def device_type_of (device : Int) : Nat × List Event :=
  if device = DEVICE_CPU then (CL_DEVICE_TYPE_CPU, [])
  else if device = DEVICE_GPU then (CL_DEVICE_TYPE_GPU, [])
  else if device = DEVICE_ACCELERATOR then
    (CL_DEVICE_TYPE_DEFAULT, [Event.object_post "Accerlator device is disabled. Using default."])
  else if device = DEVICE_ALL then (CL_DEVICE_TYPE_ALL, [])
  else if device = DEVICE_DEFAULT then (CL_DEVICE_TYPE_DEFAULT, [])
  else (CL_DEVICE_TYPE_DEFAULT, [Event.object_error "Unkown type! Using the default device."])

/-- The function `attr_set_device`, lines 486-533. -/
def attr_set_device (x : t_gpu_fft) (argc : Int) (argv : Option t_atom) :
    Int × t_gpu_fft × List Event :=
  match decide (argc > 0), argv with
  | true, some a =>
    match a with
    | .A_LONG device =>
      if x.has_valid_device = true ∧ device = x.cl_device then (MAX_ERR_NONE, x, [])
      else
        let d := device_type_of device
        (MAX_ERR_NONE,
          { x with core := { x.core with device_type := d.1 }, new_device := device }, d.2)
    | _ => (MAX_ERR_NONE, x, [])
  | _, _ => (MAX_ERR_GENERIC, x, [])

/-- The part of `gpu_fft_new` (lines 246-248) that initialises the object. -/
def gpu_fft_new (x : t_gpu_fft) : t_gpu_fft :=
  { x with new_device := -1, fft_size_has_changed := false, has_valid_device := false }

/-! ## Block-boundary evaluation (lines 346-430) -/

/-- Lines 359-387 of `gpu_fft_dsp`: a pending device request is applied. -/
def gpu_fft_dsp_device (cl : OpenCL) (x : t_gpu_fft) : t_gpu_fft × List Event :=
  if x.new_device ≥ 0 then
    let r := clSetupRoutine cl { cl_core.uninit with device_type := x.core.device_type }
    let xe : t_gpu_fft × List Event :=
      if r.1 < 0 then
        ({ x with has_valid_device := false },
          [Event.object_error "Cannot setup device for using OpenCL!"])
      else
        let xe1 : t_gpu_fft × List Event :=
          if x.has_valid_device then
            ({ x with fft_data := clClearFFTData x.fft_data },
              [Event.clClearFFTData, Event.clReleaseContext, Event.clReleaseCommandQueue])
          else (x, [])
        let x := { xe1.1 with has_valid_device := true, cl_device := xe1.1.new_device,
                              core := r.2 }
        let f := clSetupFFTData cl x.core.context x.fft_data x.fft_size
        let x := { x with fft_data := f.2 }
        if f.1 < 0 then
          ({ x with has_valid_device := false,
                    core := { x.core with context := x.core.context.release,
                                          queue := x.core.queue.release } },
            xe1.2 ++ [Event.object_error "Error allocating memory for context!",
              Event.clReleaseContext, Event.clReleaseCommandQueue])
        else (x, xe1.2)
    ({ xe.1 with new_device := -1 }, xe.2)
  else (x, [])

/-- What `gpu_fft_dsp` leaves behind: the object, the two signals and the calls made. -/
structure DspResult where
  x : t_gpu_fft
  sp0 : t_signal
  sp1 : t_signal
  events : List Event
deriving DecidableEq

/-- Lines 389-430 of `gpu_fft_dsp`: the signal or the buffer set is adapted and
`gpu_fft_perform` is put on the DSP chain. The call `object_attr_setlong(x, "size", n)`
runs the registered setter `attr_set_fft_size` on the long atom `n`. -/
def gpu_fft_dsp_schedule (b : Build) (cl : OpenCL) (host : MaxHost) (x : t_gpu_fft)
    (sp0 sp1 : t_signal) : DspResult :=
  if x.has_valid_device then
    if b.FORWARD_EXTERNAL then
      let fft_sig := sp1
      if (fft_sig.s_n : Int) ≠ x.fft_size * 2 then
        if host.t_resizebytes (fft_sig.s_n * sizeof_t_sample)
            (x.fft_size * (sizeof_clFFT_Complex : Int)).toNat then
          let sp1 : t_signal :=
            { s_vec := resizeList fft_sig.s_vec
                ((x.fft_size * (sizeof_clFFT_Complex : Int)).toNat / sizeof_t_sample) host.fresh
              s_n := (x.fft_size * 2).toNat }
          ⟨x, sp0, sp1, [Event.dsp_add sp0.s_vec sp0.s_n sp1.s_vec sp1.s_n]⟩
        else ⟨x, sp0, sp1, [Event.object_error "Cannot resize vector for FFT!"]⟩
      else ⟨x, sp0, sp1, [Event.dsp_add sp0.s_vec sp0.s_n sp1.s_vec sp1.s_n]⟩
    else
      let fft_sig := sp0
      if (fft_sig.s_n : Int) ≠ x.fft_size * 2 then
        let xe : t_gpu_fft × List Event :=
          if (fft_sig.s_n : Int) > x.fft_size * 2 then
            let r := clResizeFFTData cl x.core.context x.fft_data ((fft_sig.s_n / 2 : Nat) : Int)
            ({ x with fft_data := r.2 },
              Event.clResizeFFTData (fft_sig.s_n / 2) ::
                (if r.1 < 0 then [Event.object_error "Error resizing memory!"] else []))
          else (x, [])
        let s := attr_set_fft_size b xe.1 1 (some (.A_LONG ((fft_sig.s_n / 2 : Nat) : Int)))
        ⟨s.2.1, sp0, sp1,
          xe.2 ++ s.2.2 ++ [Event.dsp_add sp1.s_vec sp1.s_n sp0.s_vec sp0.s_n]⟩
      else ⟨x, sp0, sp1, [Event.dsp_add sp1.s_vec sp1.s_n sp0.s_vec sp0.s_n]⟩
  else
    ⟨x, sp0, sp1, [Event.object_error "Cannot run DSP because there's no valid device"]⟩

/-- The function `gpu_fft_dsp`, lines 346-430. -/
def gpu_fft_dsp (b : Build) (cl : OpenCL) (host : MaxHost) (x : t_gpu_fft)
    (sp0 sp1 : t_signal) : DspResult :=
  let d := gpu_fft_dsp_device cl x
  let r := gpu_fft_dsp_schedule b cl host d.1 sp0 sp1
  { r with events := d.2 ++ r.events }

/-- Whether an evaluation put `gpu_fft_perform` on the DSP chain. -/
def Event.isDspAdd : Event → Bool
  | .dsp_add _ _ _ _ => true
  | _ => false

/-- Whether an evaluation called `clResizeFFTData`. -/
def Event.isResize : Event → Bool
  | .clResizeFFTData _ => true
  | _ => false

/-! ## Per-block routine (lines 270-344) -/

/-- The loop `for (i = start; i < start + count; ++i) body`, where a body that leaves
its buffers yields `none`. -/
def forLoop {σ : Type} (body : Nat → σ → Option σ) : Nat → Nat → σ → Option σ
  | _, 0, s => some s
  | i, k + 1, s => (body i s).bind (forLoop body (i + 1) k)

/-- The assignment `buf[i] = v`; `none` outside the buffer. -/
def store {β : Type} (buf : List β) (i : Nat) (v : β) : Option (List β) :=
  if i < buf.length then some (buf.set i v) else none

/-- The scalars of a run of complex elements as they lie in memory. -/
def interleave : List clFFT_Complex → List t_sample
  | [] => []
  | c :: cs => c.real :: c.imag :: interleave cs

/-- The call `memcpy(dst, src, bytes)` from sample memory into complex elements. -/
def memcpy_to_complex (dst : List clFFT_Complex) (src : List t_sample) (bytes : Nat) :
    Option (List clFFT_Complex) :=
  let n := bytes / sizeof_clFFT_Complex
  if n ≤ dst.length ∧ bytes / sizeof_t_sample ≤ src.length then
    some ((List.range n).map (fun k => ⟨src.getD (2 * k) 0, src.getD (2 * k + 1) 0⟩)
      ++ dst.drop n)
  else none

/-- The call `memcpy(dst, src, bytes)` from complex elements into sample memory. -/
def memcpy_of_complex (dst : List t_sample) (src : List clFFT_Complex) (bytes : Nat) :
    Option (List t_sample) :=
  let n := bytes / sizeof_clFFT_Complex
  if n ≤ src.length ∧ bytes / sizeof_t_sample ≤ dst.length then
    some (interleave (src.take n) ++ dst.drop (bytes / sizeof_t_sample))
  else none

/-- The call `memset(dst, 0, bytes)` on sample memory: every sample that lies wholly within
the first `bytes` bytes becomes zero. -/
def memset_zero (dst : List t_sample) (bytes : Nat) : Option (List t_sample) :=
  let n := bytes / sizeof_t_sample
  if n ≤ dst.length then some (List.replicate n 0 ++ dst.drop n) else none

/-- The arguments `w[1]` to `w[5]` of `gpu_fft_perform`. The two vectors are the memory
that starts at the respective pointer. -/
structure PerformArgs where
  x : t_gpu_fft
  time_sig : List t_sample
  time_sig_size : Nat
  fft_sig : List t_sample
  w5 : Nat
deriving DecidableEq

/-- What `gpu_fft_perform` leaves behind; `submitted` records the scratch elements passed
to `clEnqueueWriteBuffer`. -/
structure PerformResult where
  x : t_gpu_fft
  time_sig : List t_sample
  fft_sig : List t_sample
  submitted : List clFFT_Complex
deriving DecidableEq

/-- Lines 282-294: the input is copied to the scratch buffer. -/
def perform_copy_in (b : Build) (w : PerformArgs) (data_i : List clFFT_Complex) :
    Option (List clFFT_Complex) :=
  let fft_sig_size := w.w5 / 2
  let fft_byte_size := fft_sig_size * sizeof_clFFT_Complex
  if b.FORWARD_EXTERNAL then
    (forLoop (fun i d => store d i ⟨0, 0⟩) 0 fft_sig_size data_i).bind
      (forLoop (fun i d => (w.time_sig.get? i).bind (fun v => store d i ⟨v, 0⟩))
        0 w.time_sig_size)
  else memcpy_to_complex data_i w.fft_sig fft_byte_size

/-- Lines 337-343, the label `zero`. `sizeof_t_signal` is the size in bytes of the host's
struct `t_signal`. -/
def perform_zero (b : Build) (sizeof_t_signal : Nat) (w : PerformArgs)
    (data_i : List clFFT_Complex) : Option PerformResult :=
  let fft_sig_size := w.w5 / 2
  let fft_byte_size := fft_sig_size * sizeof_clFFT_Complex
  let x := { w.x with fft_data := { w.x.fft_data with data_i := .live data_i } }
  if b.FORWARD_EXTERNAL then
    (memset_zero w.fft_sig fft_byte_size).map
      (fun o => ⟨x, w.time_sig, o, data_i.take fft_sig_size⟩)
  else
    (memset_zero w.time_sig (w.time_sig_size * sizeof_t_signal)).map
      (fun o => ⟨x, o, w.fft_sig, data_i.take fft_sig_size⟩)

/-- Lines 326-335: the result is copied to the outlet. -/
def perform_copy_out (b : Build) (w : PerformArgs) (submitted data_i : List clFFT_Complex) :
    Option PerformResult :=
  let fft_sig_size := w.w5 / 2
  let fft_byte_size := fft_sig_size * sizeof_clFFT_Complex
  let x := { w.x with fft_data := { w.x.fft_data with data_i := .live data_i } }
  if b.FORWARD_EXTERNAL then
    (memcpy_of_complex w.fft_sig data_i fft_byte_size).map
      (fun o => ⟨x, w.time_sig, o, submitted⟩)
  else
    (forLoop (fun i t => (data_i.get? i).bind
        (fun c => store t i (c.real * w.x.one_over_fft_size))) 0 w.time_sig_size w.time_sig).map
      (fun o => ⟨x, o, w.fft_sig, submitted⟩)

/-- The function `gpu_fft_perform`, lines 270-344. The result is `none` when the routine
dereferences a scratch pointer that is not live or leaves one of its buffers. A failed
`clEnqueueReadBuffer` is taken to leave the scratch buffer as submitted. -/
def gpu_fft_perform (b : Build) (sizeof_t_signal : Nat) (q : CLQueue) (w : PerformArgs) :
    Option PerformResult :=
  let fft_sig_size := w.w5 / 2
  match w.x.fft_data.data_i with
  | .live d0 =>
    (perform_copy_in b w d0).bind fun d1 =>
      let submitted := d1.take fft_sig_size
      if q.clEnqueueWriteBuffer submitted < 0 then perform_zero b sizeof_t_signal w d1
      else if q.clFFT_ExecuteInterleaved submitted < 0 then perform_zero b sizeof_t_signal w d1
      else
        let r := q.clEnqueueReadBuffer submitted
        if r.1 < 0 then perform_zero b sizeof_t_signal w d1
        else
          let d2 := (List.range fft_sig_size).map r.2 ++ d1.drop fft_sig_size
          perform_copy_out b w submitted d2
  | _ => none

/-! ## Specification-level descriptions -/

/-- The scratch contents the forward direction is specified to submit: element `i` is
`(input[i], 0)` below the input length `T` and `(0, 0)` from there up to the transform
length `L`. -/
def zero_padded (input : List t_sample) (T L : Nat) : List clFFT_Complex :=
  (List.range L).map (fun i => if i < T then ⟨input.getD i 0, 0⟩ else ⟨0, 0⟩)

/-- The scratch contents the inverse direction is specified to submit: the first `L`
interleaved (real, imaginary) pairs of the spectral input. -/
def spectrum (input : List t_sample) (L : Nat) : List clFFT_Complex :=
  (List.range L).map (fun k => ⟨input.getD (2 * k) 0, input.getD (2 * k + 1) 0⟩)

/-- The normalization factor is the reciprocal of the transform length. -/
def Normalized (x : t_gpu_fft) : Prop :=
  x.fft_size ≠ 0 → x.one_over_fft_size = 1 / (x.fft_size : ℚ)

/-! ## Concrete environments, objects and blocks -/

/-- An OpenCL environment in which every call succeeds. -/
def cl_ok : OpenCL :=
  { clGetDeviceIDs := fun _ => (0, 1, 1)
    clCreateContext := fun _ => (some 1, 0)
    clCreateCommandQueue := fun _ _ => (some 1, 0)
    clGetDeviceInfo := fun _ => (0, 1024)
    malloc := fun _ => true
    realloc := fun _ => true
    fresh := fun _ => ⟨0, 0⟩
    clFFT_CreatePlan := fun _ _ => (true, 0)
    clCreateBuffer := fun _ _ => true }

/-- As `cl_ok`, except that `clFFT_CreatePlan` returns `NULL` for more than `m` points. -/
def cl_plan_limit (m : Nat) : OpenCL :=
  { cl_ok with clFFT_CreatePlan := fun _ n => (decide (n ≤ m), 0) }

/-- As `cl_ok`, except that `realloc` fails. -/
def cl_no_realloc : OpenCL := { cl_ok with realloc := fun _ => false }

/-- A host whose `t_resizebytes` succeeds and adds zeros. -/
def host_ok : MaxHost := ⟨fun _ _ => true, fun _ => 0⟩

/-- A command queue whose three calls return the given status codes and which reads back
zeros. -/
def queue_returning (wr ex rd : Int) : CLQueue :=
  { clEnqueueWriteBuffer := fun _ => wr
    clFFT_ExecuteInterleaved := fun _ => ex
    clEnqueueReadBuffer := fun _ => (rd, fun _ => ⟨0, 0⟩) }

/-- A signal of `n` zero samples. -/
def silence (n : Nat) : t_signal := ⟨n, List.replicate n 0⟩

/-- A new object: cleared storage after lines 246-248. -/
def x_fresh : t_gpu_fft :=
  gpu_fft_new
    { core := cl_core.uninit
      fft_data := ⟨0, .null, .null, .null, .null⟩
      fft_size := 0, cl_device := 0, new_device := 0, one_over_fft_size := 0
      fft_size_has_changed := false, has_valid_device := false }

/-- The new object after a request for 8 points. -/
def x_sized (b : Build) : t_gpu_fft := (attr_set_fft_size b x_fresh 1 (some (.A_LONG 8))).2.1

/-- Then after a request for device 2 (GPU). -/
def x_requested (b : Build) : t_gpu_fft := (attr_set_device (x_sized b) 1 (some (.A_LONG 2))).2.1

/-- Then after an evaluation in which every call succeeds: a valid session on device 2 with
a buffer set of 8 elements. -/
def x_running (b : Build) : t_gpu_fft :=
  (gpu_fft_dsp b cl_ok host_ok (x_requested b) (silence 16) (silence 16)).x

/-- The inverse object after a further evaluation with a spectral input of 8 scalars: the
logical length is 4, the buffer set still holds 8 elements. -/
def x_shrunk : t_gpu_fft :=
  (gpu_fft_dsp inverseBuild cl_ok host_ok (x_running inverseBuild) (silence 8) (silence 16)).x

/-- The forward object after the requests for device 1 and then device 2. -/
def x_rerequested : t_gpu_fft :=
  (attr_set_device (attr_set_device (x_running forwardBuild) 1 (some (.A_LONG 1))).2.1
    1 (some (.A_LONG 2))).2.1

/-- The forward object after a later request for 16 points. -/
def x_resized_forward : t_gpu_fft :=
  (attr_set_fft_size forwardBuild (x_running forwardBuild) 1 (some (.A_LONG 16))).2.1

/-- A block for the forward build on `x_running forwardBuild`: three input samples and an
output vector of sixteen scalars. -/
def block_forward : PerformArgs :=
  { x := x_running forwardBuild
    time_sig := [1, 2, 3]
    time_sig_size := 3
    fft_sig := List.replicate 16 9
    w5 := 16 }

/-- A block for the inverse build on `x_running inverseBuild`: an output vector of two
samples (value 5) that is followed in memory by twelve other samples (value 7), and a
spectral input of sixteen scalars. -/
def block_inverse : PerformArgs :=
  { x := x_running inverseBuild
    time_sig := List.replicate 2 5 ++ List.replicate 12 7
    time_sig_size := 2
    fft_sig := List.replicate 16 1
    w5 := 16 }

/-! ## Theorems on `nextPowerOf2` -/

/-- Every number is its own window of width one. -/
theorem bitWindow_one (y : Nat) : BitWindow 1 y y := by
  intro i
  constructor
  · intro h
    exact ⟨i, le_refl i, by omega, h⟩
  · rintro ⟨j, h1, h2, h3⟩
    have : j = i := by omega
    subst this
    exact h3

/-- One shift-or step doubles the width of the window. -/
theorem bitWindow_step {n z y : Nat} (h : BitWindow n z y) :
    BitWindow (n + n) (z ||| (z >>> n)) y := by
  intro i
  rw [Nat.testBit_lor, Nat.testBit_shiftRight, Bool.or_eq_true, h i, h (n + i)]
  constructor
  · rintro (⟨j, h1, h2, h3⟩ | ⟨j, h1, h2, h3⟩)
    · exact ⟨j, h1, by omega, h3⟩
    · exact ⟨j, by omega, by omega, h3⟩
  · rintro ⟨j, h1, h2, h3⟩
    by_cases hj : j < i + n
    · exact Or.inl ⟨j, h1, hj, h3⟩
    · exact Or.inr ⟨j, by omega, by omega, h3⟩

/-- After the five shift-or steps of `nextPowerOf2` a bit is set exactly when one of the
32 bits at or above it was set before. -/
theorem smear_bitWindow (y : Nat) :
    BitWindow 32 (((((y ||| (y >>> 1)) ||| ((y ||| (y >>> 1)) >>> 2))
      ||| (((y ||| (y >>> 1)) ||| ((y ||| (y >>> 1)) >>> 2)) >>> 4))
      ||| ((((y ||| (y >>> 1)) ||| ((y ||| (y >>> 1)) >>> 2))
      ||| (((y ||| (y >>> 1)) ||| ((y ||| (y >>> 1)) >>> 2)) >>> 4)) >>> 8))
      ||| (((((y ||| (y >>> 1)) ||| ((y ||| (y >>> 1)) >>> 2))
      ||| (((y ||| (y >>> 1)) ||| ((y ||| (y >>> 1)) >>> 2)) >>> 4))
      ||| ((((y ||| (y >>> 1)) ||| ((y ||| (y >>> 1)) >>> 2))
      ||| (((y ||| (y >>> 1)) ||| ((y ||| (y >>> 1)) >>> 2)) >>> 4)) >>> 8)) >>> 16)) y :=
  bitWindow_step (bitWindow_step (bitWindow_step (bitWindow_step
    (bitWindow_step (bitWindow_one y)))))

/-- A 32-bit window over a number whose top bit is `k < 32` is the number with bits
`0..k` set. -/
theorem bitWindow_eq_ones {z y k : Nat} (h : BitWindow 32 z y) (hk : k < 32)
    (hlo : 2 ^ k ≤ y) (hhi : y < 2 ^ (k + 1)) : z = 2 ^ (k + 1) - 1 := by
  apply Nat.eq_of_testBit_eq
  intro i
  rw [Nat.testBit_two_pow_sub_one]
  have hbits : ∀ j, y.testBit j = true → j ≤ k := by
    intro j hj
    have h1 := Nat.testBit_implies_ge hj
    by_contra hc
    have : 2 ^ (k + 1) ≤ 2 ^ j := Nat.pow_le_pow_right (by norm_num) (by omega)
    omega
  have htop : y.testBit k = true := by
    obtain ⟨j, hj1, hj2⟩ := Nat.ge_two_pow_implies_high_bit_true hlo
    have := hbits j hj2
    have : j = k := by omega
    subst this
    exact hj2
  by_cases hi : i < k + 1
  · have : z.testBit i = true := (h i).2 ⟨k, by omega, by omega, htop⟩
    simp [this, hi]
  · have : ¬ (z.testBit i = true) := by
      intro hz
      obtain ⟨j, h1, _, h3⟩ := (h i).1 hz
      have := hbits j h3
      omega
    simp [this, hi]

/-- When bit `k` is the top bit of `x - 1`, the result is `2 ^ (k + 1)` reduced to 32 bits. -/
theorem nextPowerOf2_of_top_bit {x k : Nat} (hx : x < UINT_MOD) (hpos : 1 ≤ x)
    (hlo : 2 ^ k ≤ x - 1) (hhi : x - 1 < 2 ^ (k + 1)) :
    nextPowerOf2 x = 2 ^ (k + 1) % UINT_MOD := by
  have hk : k < 32 := by
    by_contra hc
    have : 2 ^ 32 ≤ 2 ^ k := Nat.pow_le_pow_right (by norm_num) (by omega)
    simp only [UINT_MOD] at hx
    omega
  have hdec : (x + (UINT_MOD - 1)) % UINT_MOD = x - 1 := by
    simp only [UINT_MOD] at hx ⊢
    omega
  have hone : (1 : Nat) ≤ 2 ^ (k + 1) := Nat.one_le_two_pow
  have hz := bitWindow_eq_ones (smear_bitWindow (x - 1)) hk hlo hhi
  show (_ + 1) % UINT_MOD = _
  rw [hdec, hz, Nat.sub_add_cancel hone]

/-- Characterisation of `nextPowerOf2` on `2 ≤ x ≤ 2 ^ 31`: the result is `2 ^ (k + 1)`
for the top bit `k` of `x - 1`. -/
theorem nextPowerOf2_eq_pow {x : Nat} (h2 : 2 ≤ x) (hx : x ≤ 2 ^ 31) :
    ∃ k, k < 31 ∧ 2 ^ k ≤ x - 1 ∧ x - 1 < 2 ^ (k + 1) ∧ nextPowerOf2 x = 2 ^ (k + 1) := by
  have hne : x - 1 ≠ 0 := by omega
  refine ⟨Nat.log2 (x - 1), ?_, Nat.log2_self_le hne, Nat.lt_log2_self, ?_⟩
  · by_contra hc
    have h1 : 2 ^ 31 ≤ 2 ^ Nat.log2 (x - 1) := Nat.pow_le_pow_right (by norm_num) (by omega)
    have h2 := Nat.log2_self_le hne
    omega
  · have hk : Nat.log2 (x - 1) < 31 := by
      by_contra hc
      have h1 : 2 ^ 31 ≤ 2 ^ Nat.log2 (x - 1) := Nat.pow_le_pow_right (by norm_num) (by omega)
      have h2 := Nat.log2_self_le hne
      omega
    rw [nextPowerOf2_of_top_bit (by simp only [UINT_MOD]; omega) (by omega)
      (Nat.log2_self_le hne) Nat.lt_log2_self]
    apply Nat.mod_eq_of_lt
    have : 2 ^ (Nat.log2 (x - 1) + 1) ≤ 2 ^ 31 := Nat.pow_le_pow_right (by norm_num) (by omega)
    simp only [UINT_MOD]
    omega

/-- C1 (as amended): for every `x` with `1 ≤ x ≤ 2 ^ 31`, `nextPowerOf2 x` is a power of
two, is at least `x`, and is at most every power of two that is at least `x`; and
`nextPowerOf2 1 = 1`, `nextPowerOf2 8192 = 8192`, `nextPowerOf2 8193 = 16384`. -/
theorem nextPowerOf2_least_pow2 :
    (∀ x : Nat, 1 ≤ x → x ≤ 2 ^ 31 →
      (∃ k, nextPowerOf2 x = 2 ^ k) ∧ x ≤ nextPowerOf2 x ∧
        ∀ m, x ≤ 2 ^ m → nextPowerOf2 x ≤ 2 ^ m) ∧
    nextPowerOf2 1 = 1 ∧ nextPowerOf2 8192 = 8192 ∧ nextPowerOf2 8193 = 16384 := by
  refine ⟨?_, by decide, by decide, by decide⟩
  intro x h1 hx
  by_cases hone : x = 1
  · subst hone
    refine ⟨⟨0, by decide⟩, by decide, ?_⟩
    intro m _
    have : nextPowerOf2 1 = 1 := by decide
    rw [this]
    exact Nat.one_le_two_pow
  · obtain ⟨k, _, hlo, hhi, hk⟩ := nextPowerOf2_eq_pow (by omega : 2 ≤ x) hx
    rw [hk]
    refine ⟨⟨k + 1, rfl⟩, by omega, ?_⟩
    intro m hm
    apply Nat.pow_le_pow_right (by norm_num)
    by_contra hc
    have : 2 ^ m ≤ 2 ^ k := Nat.pow_le_pow_right (by norm_num) (by omega)
    omega

/-- Witness for C1 (as amended): the statement at `x = 8193`. -/
theorem nextPowerOf2_least_pow2_witness :
    (∃ k, nextPowerOf2 8193 = 2 ^ k) ∧ 8193 ≤ nextPowerOf2 8193 ∧
      ∀ m, 8193 ≤ 2 ^ m → nextPowerOf2 8193 ≤ 2 ^ m :=
  nextPowerOf2_least_pow2.1 8193 (by decide) (by decide)

/-- C1 (as stated) fails: `2 ^ 31 + 1` is a 32-bit value, and `nextPowerOf2` maps it to `0`,
which is neither a power of two nor at least the argument. -/
theorem nextPowerOf2_wraps_above_two_pow_31 :
    2147483649 < UINT_MOD ∧ nextPowerOf2 2147483649 = 0 ∧
      ¬ ((∃ k, nextPowerOf2 2147483649 = 2 ^ k) ∧ 2147483649 ≤ nextPowerOf2 2147483649) := by
  refine ⟨by decide, by decide, ?_⟩
  rintro ⟨_, h⟩
  have h0 : nextPowerOf2 2147483649 = 0 := by decide
  rw [h0] at h
  omega

/-- C8: for every `k ≤ 31`, `nextPowerOf2 (2 ^ k) = 2 ^ k`. -/
theorem nextPowerOf2_pow2_fixed (k : Nat) (hk : k ≤ 31) : nextPowerOf2 (2 ^ k) = 2 ^ k := by
  have h : ∀ j < 32, nextPowerOf2 (2 ^ j) = 2 ^ j := by decide
  exact h k (by omega)

/-- Witness for C8 at the largest representable power of two. -/
theorem nextPowerOf2_pow2_fixed_witness : nextPowerOf2 (2 ^ 31) = 2 ^ 31 :=
  nextPowerOf2_pow2_fixed 31 (by decide)

/-! ## Theorems on the attribute setters -/

/-- The setter `attr_set_fft_size` changes at most `fft_size` and `one_over_fft_size`. -/
theorem attr_set_fft_size_frame (b : Build) (x : t_gpu_fft) (argc : Int) (argv : Option t_atom) :
    (attr_set_fft_size b x argc argv).2.1 =
      { x with fft_size := (attr_set_fft_size b x argc argv).2.1.fft_size
               one_over_fft_size := (attr_set_fft_size b x argc argv).2.1.one_over_fft_size } := by
  unfold attr_set_fft_size
  split
  · split
    · cases hb : b.INVERSE_EXTERNAL <;> simp
    · rfl
  · rfl

/-- The setter `attr_set_fft_size` neither schedules `gpu_fft_perform` nor resizes. -/
theorem attr_set_fft_size_events (b : Build) (x : t_gpu_fft) (argc : Int) (argv : Option t_atom) :
    ∀ e ∈ (attr_set_fft_size b x argc argv).2.2, e.isDspAdd = false ∧ e.isResize = false := by
  unfold attr_set_fft_size
  split
  · split
    · simp only
      split <;> simp [Event.isDspAdd, Event.isResize]
    · simp
  · simp

/-- With `INVERSE_EXTERNAL`, a long atom sets the length to the coerced value and the
factor to its reciprocal. -/
theorem attr_set_fft_size_normalized (b : Build) (x : t_gpu_fft) (argc : Int) (v : Int)
    (hb : b.INVERSE_EXTERNAL = true) (hc : argc > 0) :
    (attr_set_fft_size b x argc (some (.A_LONG v))).2.1.fft_size
        = (nextPowerOf2 (uint_of_long v) : Nat) ∧
    (attr_set_fft_size b x argc (some (.A_LONG v))).2.1.one_over_fft_size
        = 1 / ((nextPowerOf2 (uint_of_long v) : Nat) : ℚ) := by
  unfold attr_set_fft_size
  simp [hc, hb]

/-- With `INVERSE_EXTERNAL`, `attr_set_fft_size` keeps the factor the reciprocal of the
length. -/
theorem attr_set_fft_size_keeps_normalized (b : Build) (x : t_gpu_fft) (argc : Int)
    (argv : Option t_atom) (hb : b.INVERSE_EXTERNAL = true) (hx : Normalized x) :
    Normalized (attr_set_fft_size b x argc argv).2.1 := by
  unfold attr_set_fft_size
  split
  · split
    · simp [hb, Normalized]
    · exact hx
  · exact hx

/-- C7: `attr_set_device` changes at most `new_device` and `core.device_type`, and
`attr_set_fft_size` changes at most `fft_size` and (only when `INVERSE_EXTERNAL` is
defined) `one_over_fft_size`; in particular neither changes `has_valid_device`,
`cl_device`, the context, the queue or the buffer set. -/
theorem attr_setters_deferred (b : Build) (x : t_gpu_fft) (argc : Int) (argv : Option t_atom) :
    ((attr_set_device x argc argv).2.1 =
        { x with core := { x.core with
                    device_type := (attr_set_device x argc argv).2.1.core.device_type }
                 new_device := (attr_set_device x argc argv).2.1.new_device }) ∧
    ((attr_set_fft_size b x argc argv).2.1 =
        { x with fft_size := (attr_set_fft_size b x argc argv).2.1.fft_size
                 one_over_fft_size := (attr_set_fft_size b x argc argv).2.1.one_over_fft_size }) ∧
    (b.INVERSE_EXTERNAL = false →
      (attr_set_fft_size b x argc argv).2.1.one_over_fft_size = x.one_over_fft_size) ∧
    (∀ y, y = (attr_set_device x argc argv).2.1 ∨ y = (attr_set_fft_size b x argc argv).2.1 →
      y.has_valid_device = x.has_valid_device ∧ y.cl_device = x.cl_device ∧
      y.core.context = x.core.context ∧ y.core.queue = x.core.queue ∧
      y.fft_data = x.fft_data) := by
  have hd : (attr_set_device x argc argv).2.1 =
        { x with core := { x.core with
                    device_type := (attr_set_device x argc argv).2.1.core.device_type }
                 new_device := (attr_set_device x argc argv).2.1.new_device } := by
    unfold attr_set_device
    split
    · split
      · split <;> rfl
      · rfl
    · rfl
  have hs : (attr_set_fft_size b x argc argv).2.1 =
        { x with fft_size := (attr_set_fft_size b x argc argv).2.1.fft_size
                 one_over_fft_size := (attr_set_fft_size b x argc argv).2.1.one_over_fft_size } := by
    unfold attr_set_fft_size
    split
    · split
      · cases hb : b.INVERSE_EXTERNAL <;> simp
      · rfl
    · rfl
  refine ⟨hd, hs, ?_, ?_⟩
  · intro hb
    unfold attr_set_fft_size
    split
    · split
      · simp [hb]
      · rfl
    · rfl
  · rintro y (rfl | rfl)
    · rw [hd]; exact ⟨rfl, rfl, rfl, rfl, rfl⟩
    · rw [hs]; exact ⟨rfl, rfl, rfl, rfl, rfl⟩

/-! ## Theorems on `gpu_fft_dsp` -/

/-- The function `clSetupRoutine` returns `0`, `-1` or `-2`. -/
theorem clSetupRoutine_status (cl : OpenCL) (core : cl_core) :
    (clSetupRoutine cl core).1 = 0 ∨ (clSetupRoutine cl core).1 = -1 ∨
      (clSetupRoutine cl core).1 = -2 := by
  unfold clSetupRoutine
  dsimp only
  split_ifs <;> simp

/-- The function `clSetupFFTData` returns `0` or `-1`. -/
theorem clSetupFFTData_status (cl : OpenCL) (c : Ptr Nat) (d : clfft_data) (n : Int) :
    (clSetupFFTData cl c d n).1 = 0 ∨ (clSetupFFTData cl c d n).1 = -1 := by
  unfold clSetupFFTData
  dsimp only
  split_ifs <;> simp

/-- The second half of `gpu_fft_dsp` changes neither the validity flag nor the pending
device, nor the active device or the session. -/
theorem gpu_fft_dsp_schedule_frame (b : Build) (cl : OpenCL) (host : MaxHost) (x : t_gpu_fft)
    (sp0 sp1 : t_signal) :
    (gpu_fft_dsp_schedule b cl host x sp0 sp1).x =
      { x with fft_size := (gpu_fft_dsp_schedule b cl host x sp0 sp1).x.fft_size
               one_over_fft_size := (gpu_fft_dsp_schedule b cl host x sp0 sp1).x.one_over_fft_size
               fft_data := (gpu_fft_dsp_schedule b cl host x sp0 sp1).x.fft_data } := by
  unfold gpu_fft_dsp_schedule
  split
  · split
    · simp only
      split
      · split <;> rfl
      · rfl
    · simp only
      split
      · split
        · simp only
          rw [attr_set_fft_size_frame]
        · simp only
          rw [attr_set_fft_size_frame]
      · rfl
  · rfl

/-- Without a valid device nothing is put on the DSP chain. -/
theorem gpu_fft_dsp_schedule_invalid (b : Build) (cl : OpenCL) (host : MaxHost) (x : t_gpu_fft)
    (sp0 sp1 : t_signal) (h : x.has_valid_device = false) :
    ∀ e ∈ (gpu_fft_dsp_schedule b cl host x sp0 sp1).events, e.isDspAdd = false := by
  unfold gpu_fft_dsp_schedule
  simp [h, Event.isDspAdd]

/-- Lines 359-387 neither schedule `gpu_fft_perform` nor call `clResizeFFTData`. -/
theorem gpu_fft_dsp_device_events (cl : OpenCL) (x : t_gpu_fft) :
    ∀ e ∈ (gpu_fft_dsp_device cl x).2, e.isDspAdd = false ∧ e.isResize = false := by
  unfold gpu_fft_dsp_device
  dsimp only
  split_ifs <;> simp [Event.isDspAdd, Event.isResize]

/-- The state after lines 359-387 when a device change is pending. -/
theorem gpu_fft_dsp_device_pending (cl : OpenCL) (x : t_gpu_fft) (h : x.new_device ≥ 0) :
    (gpu_fft_dsp_device cl x).1.new_device = -1 ∧
    ((gpu_fft_dsp_device cl x).1.has_valid_device = true ↔
      ((clSetupRoutine cl { cl_core.uninit with device_type := x.core.device_type }).1 = 0 ∧
       (clSetupFFTData cl
          (clSetupRoutine cl { cl_core.uninit with device_type := x.core.device_type }).2.context
          (if x.has_valid_device then clClearFFTData x.fft_data else x.fft_data)
          x.fft_size).1 = 0)) := by
  have hs := clSetupRoutine_status cl { cl_core.uninit with device_type := x.core.device_type }
  have hf := clSetupFFTData_status cl
    (clSetupRoutine cl { cl_core.uninit with device_type := x.core.device_type }).2.context
    (if x.has_valid_device then clClearFFTData x.fft_data else x.fft_data) x.fft_size
  unfold gpu_fft_dsp_device
  dsimp only
  rw [if_pos h]
  refine ⟨rfl, ?_⟩
  dsimp only at hs hf ⊢
  generalize clSetupRoutine cl _ = s at hs hf ⊢
  obtain ⟨s1, s2⟩ := s
  cases hv : x.has_valid_device <;>
    simp only [hv, Bool.false_eq_true, if_false, if_true] at hf ⊢
  all_goals
    generalize clSetupFFTData cl _ _ _ = f at hf ⊢
    obtain ⟨f1, f2⟩ := f
    simp only at hs hf
    rcases hs with rfl | rfl | rfl <;> rcases hf with rfl | rfl <;> simp

/-- With `INVERSE_EXTERNAL`, `gpu_fft_dsp` keeps the factor the reciprocal of the length. -/
theorem gpu_fft_dsp_normalized (b : Build) (cl : OpenCL) (host : MaxHost) (x : t_gpu_fft)
    (sp0 sp1 : t_signal) (hb : b.INVERSE_EXTERNAL = true) (hx : Normalized x) :
    Normalized (gpu_fft_dsp b cl host x sp0 sp1).x := by
  have hd : Normalized (gpu_fft_dsp_device cl x).1 := by
    have h1 : (gpu_fft_dsp_device cl x).1.fft_size = x.fft_size := by
      unfold gpu_fft_dsp_device
      dsimp only
      split_ifs <;> rfl
    have h2 : (gpu_fft_dsp_device cl x).1.one_over_fft_size = x.one_over_fft_size := by
      unfold gpu_fft_dsp_device
      dsimp only
      split_ifs <;> rfl
    unfold Normalized
    rw [h1, h2]
    exact hx
  show Normalized (gpu_fft_dsp_schedule b cl host (gpu_fft_dsp_device cl x).1 sp0 sp1).x
  generalize (gpu_fft_dsp_device cl x).1 = y at hd
  unfold gpu_fft_dsp_schedule
  split
  · split
    · dsimp only
      split_ifs <;> exact hd
    · dsimp only
      split
      · split
        · dsimp only
          apply attr_set_fft_size_keeps_normalized _ _ _ _ hb
          exact hd
        · dsimp only
          apply attr_set_fft_size_keeps_normalized _ _ _ _ hb
          exact hd
      · exact hd
  · exact hd

/-- C5: when a device change is pending, one evaluation of `gpu_fft_dsp` consumes the
request, ends with `has_valid_device` true exactly when `clSetupRoutine` and
`clSetupFFTData` both returned success, and on any failure ends with
`has_valid_device` false and without scheduling `gpu_fft_perform`. -/
theorem gpu_fft_dsp_pending_device (b : Build) (cl : OpenCL) (host : MaxHost) (x : t_gpu_fft)
    (sp0 sp1 : t_signal) (h : x.new_device ≥ 0) :
    (gpu_fft_dsp b cl host x sp0 sp1).x.new_device = -1 ∧
    ((gpu_fft_dsp b cl host x sp0 sp1).x.has_valid_device = true ↔
      ((clSetupRoutine cl { cl_core.uninit with device_type := x.core.device_type }).1 = 0 ∧
       (clSetupFFTData cl
          (clSetupRoutine cl { cl_core.uninit with device_type := x.core.device_type }).2.context
          (if x.has_valid_device then clClearFFTData x.fft_data else x.fft_data)
          x.fft_size).1 = 0)) ∧
    (¬ ((clSetupRoutine cl { cl_core.uninit with device_type := x.core.device_type }).1 = 0 ∧
       (clSetupFFTData cl
          (clSetupRoutine cl { cl_core.uninit with device_type := x.core.device_type }).2.context
          (if x.has_valid_device then clClearFFTData x.fft_data else x.fft_data)
          x.fft_size).1 = 0) →
      (gpu_fft_dsp b cl host x sp0 sp1).x.has_valid_device = false ∧
      ∀ e ∈ (gpu_fft_dsp b cl host x sp0 sp1).events, e.isDspAdd = false) := by
  obtain ⟨h1, h2⟩ := gpu_fft_dsp_device_pending cl x h
  have hfr := gpu_fft_dsp_schedule_frame b cl host (gpu_fft_dsp_device cl x).1 sp0 sp1
  have hx : (gpu_fft_dsp b cl host x sp0 sp1).x =
      (gpu_fft_dsp_schedule b cl host (gpu_fft_dsp_device cl x).1 sp0 sp1).x := rfl
  have hnew : (gpu_fft_dsp b cl host x sp0 sp1).x.new_device =
      (gpu_fft_dsp_device cl x).1.new_device := by rw [hx, hfr]
  have hval : (gpu_fft_dsp b cl host x sp0 sp1).x.has_valid_device =
      (gpu_fft_dsp_device cl x).1.has_valid_device := by rw [hx, hfr]
  refine ⟨by rw [hnew, h1], by rw [hval]; exact h2, ?_⟩
  intro hfail
  have hinv : (gpu_fft_dsp_device cl x).1.has_valid_device = false := by
    cases hv : (gpu_fft_dsp_device cl x).1.has_valid_device
    · rfl
    · exact absurd (h2.1 hv) hfail
  refine ⟨by rw [hval, hinv], ?_⟩
  intro e he
  have hev : (gpu_fft_dsp b cl host x sp0 sp1).events =
      (gpu_fft_dsp_device cl x).2 ++
        (gpu_fft_dsp_schedule b cl host (gpu_fft_dsp_device cl x).1 sp0 sp1).events := rfl
  rw [hev, List.mem_append] at he
  rcases he with he | he
  · exact (gpu_fft_dsp_device_events cl x e he).1
  · exact gpu_fft_dsp_schedule_invalid b cl host _ sp0 sp1 hinv e he

/-- Witness for C5: the pending request for device 2 on a new object, with every OpenCL
call succeeding. -/
theorem gpu_fft_dsp_pending_device_witness :
    (x_requested forwardBuild).new_device ≥ 0 ∧
    (gpu_fft_dsp forwardBuild cl_ok host_ok (x_requested forwardBuild)
      (silence 16) (silence 16)).x.new_device = -1 ∧
    (gpu_fft_dsp forwardBuild cl_ok host_ok (x_requested forwardBuild)
      (silence 16) (silence 16)).x.has_valid_device = true :=
  ⟨by decide,
   (gpu_fft_dsp_pending_device forwardBuild cl_ok host_ok (x_requested forwardBuild)
      (silence 16) (silence 16) (by decide)).1,
   (gpu_fft_dsp_pending_device forwardBuild cl_ok host_ok (x_requested forwardBuild)
      (silence 16) (silence 16) (by decide)).2.1.2 ⟨by decide, by decide⟩⟩

/-- Lines 402-417: `clResizeFFTData` is called exactly when `s_n > fft_size * 2`. -/
theorem gpu_fft_dsp_schedule_resize (b : Build) (cl : OpenCL) (host : MaxHost) (x : t_gpu_fft)
    (sp0 sp1 : t_signal) (hb : b.FORWARD_EXTERNAL = false) (hv : x.has_valid_device = true) :
    ((∃ e ∈ (gpu_fft_dsp_schedule b cl host x sp0 sp1).events, e.isResize = true) ↔
        (sp0.s_n : Int) > x.fft_size * 2) ∧
    ((sp0.s_n : Int) > x.fft_size * 2 →
        Event.clResizeFFTData (sp0.s_n / 2) ∈ (gpu_fft_dsp_schedule b cl host x sp0 sp1).events) ∧
    ((sp0.s_n : Int) ≤ x.fft_size * 2 →
        (gpu_fft_dsp_schedule b cl host x sp0 sp1).x.fft_data = x.fft_data) := by
  have hset := attr_set_fft_size_events b
  unfold gpu_fft_dsp_schedule
  simp only [hv, hb, if_true, Bool.false_eq_true, if_false]
  by_cases hne : (sp0.s_n : Int) ≠ x.fft_size * 2
  · rw [if_pos hne]
    by_cases hgt : (sp0.s_n : Int) > x.fft_size * 2
    · rw [if_pos hgt]
      refine ⟨⟨fun _ => hgt, fun _ => ⟨Event.clResizeFFTData (sp0.s_n / 2), by simp, rfl⟩⟩,
        fun _ => by simp, fun hle => absurd hgt (by omega)⟩
    · rw [if_neg hgt]
      refine ⟨⟨?_, fun h => absurd h hgt⟩, fun h => absurd h hgt, fun _ => ?_⟩
      · rintro ⟨e, he, hr⟩
        simp only [List.nil_append, List.mem_append, List.mem_singleton] at he
        rcases he with he | rfl
        · have := (hset _ _ _ e he).2
          rw [this] at hr
          exact absurd hr (by simp)
        · simp [Event.isResize] at hr
      · dsimp only
        rw [attr_set_fft_size_frame]
  · rw [if_neg hne]
    have hgt : ¬ (sp0.s_n : Int) > x.fft_size * 2 := by omega
    refine ⟨⟨?_, fun h => absurd h hgt⟩, fun h => absurd h hgt, fun _ => rfl⟩
    rintro ⟨e, he, hr⟩
    simp only [List.mem_singleton] at he
    subst he
    simp [Event.isResize] at hr

/-- C9 (as amended): in a build without `FORWARD_EXTERNAL`, when the session is valid after
the device phase of the evaluation, `clResizeFFTData` is called exactly when the spectral
input size `sp[0]->s_n` is strictly larger than twice the logical length `fft_size`, and
then with length `s_n / 2`; when `s_n` is at most twice `fft_size`, the buffer set (plan,
device buffer, scratch buffer, allocated length) is untouched and the object changes at
most in `fft_size` and `one_over_fft_size`. -/
theorem gpu_fft_dsp_resize_gate (b : Build) (cl : OpenCL) (host : MaxHost) (x : t_gpu_fft)
    (sp0 sp1 : t_signal) (hb : b.FORWARD_EXTERNAL = false)
    (hv : (gpu_fft_dsp_device cl x).1.has_valid_device = true) :
    ((∃ e ∈ (gpu_fft_dsp b cl host x sp0 sp1).events, e.isResize = true) ↔
        (sp0.s_n : Int) > (gpu_fft_dsp_device cl x).1.fft_size * 2) ∧
    ((sp0.s_n : Int) > (gpu_fft_dsp_device cl x).1.fft_size * 2 →
        Event.clResizeFFTData (sp0.s_n / 2) ∈ (gpu_fft_dsp b cl host x sp0 sp1).events) ∧
    ((sp0.s_n : Int) ≤ (gpu_fft_dsp_device cl x).1.fft_size * 2 →
        (gpu_fft_dsp b cl host x sp0 sp1).x.fft_data = (gpu_fft_dsp_device cl x).1.fft_data ∧
        (gpu_fft_dsp b cl host x sp0 sp1).x =
          { (gpu_fft_dsp_device cl x).1 with
              fft_size := (gpu_fft_dsp b cl host x sp0 sp1).x.fft_size
              one_over_fft_size := (gpu_fft_dsp b cl host x sp0 sp1).x.one_over_fft_size }) := by
  obtain ⟨h1, h2, h3⟩ :=
    gpu_fft_dsp_schedule_resize b cl host (gpu_fft_dsp_device cl x).1 sp0 sp1 hb hv
  have hev : (gpu_fft_dsp b cl host x sp0 sp1).events =
      (gpu_fft_dsp_device cl x).2 ++
        (gpu_fft_dsp_schedule b cl host (gpu_fft_dsp_device cl x).1 sp0 sp1).events := rfl
  have hx : (gpu_fft_dsp b cl host x sp0 sp1).x =
      (gpu_fft_dsp_schedule b cl host (gpu_fft_dsp_device cl x).1 sp0 sp1).x := rfl
  refine ⟨⟨?_, ?_⟩, ?_, ?_⟩
  · rintro ⟨e, he, hr⟩
    rw [hev, List.mem_append] at he
    rcases he with he | he
    · have := (gpu_fft_dsp_device_events cl x e he).2
      rw [this] at hr
      exact absurd hr (by simp)
    · exact h1.1 ⟨e, he, hr⟩
  · intro hgt
    obtain ⟨e, he, hr⟩ := h1.2 hgt
    exact ⟨e, by rw [hev]; exact List.mem_append_right _ he, hr⟩
  · intro hgt
    rw [hev]
    exact List.mem_append_right _ (h2 hgt)
  · intro hle
    have hfd := h3 hle
    refine ⟨by rw [hx]; exact hfd, ?_⟩
    rw [hx]
    have hfr := gpu_fft_dsp_schedule_frame b cl host (gpu_fft_dsp_device cl x).1 sp0 sp1
    rw [hfd] at hfr
    exact hfr

/-- Witness for C9 (as amended): on `x_shrunk` (logical length 4) a spectral input of 16
scalars resizes to 8, one of 6 scalars leaves the buffer set untouched. -/
theorem gpu_fft_dsp_resize_gate_witness :
    (gpu_fft_dsp_device cl_ok x_shrunk).1.has_valid_device = true ∧
    Event.clResizeFFTData 8 ∈
      (gpu_fft_dsp inverseBuild cl_ok host_ok x_shrunk (silence 16) (silence 16)).events ∧
    (gpu_fft_dsp inverseBuild cl_ok host_ok x_shrunk (silence 6) (silence 16)).x.fft_data
      = x_shrunk.fft_data :=
  ⟨by decide,
   (gpu_fft_dsp_resize_gate inverseBuild cl_ok host_ok x_shrunk (silence 16) (silence 16)
      rfl (by decide)).2.1 (by decide),
   ((gpu_fft_dsp_resize_gate inverseBuild cl_ok host_ok x_shrunk (silence 6) (silence 16)
      rfl (by decide)).2.2 (by decide)).1⟩

/-- C9 (as stated) fails: `x_shrunk` is reached from a new object by one size request, one
device request and two evaluations; its session is valid, its buffer set is allocated for
8 elements and its logical length is 4. An evaluation with a spectral input of 16 scalars
needs length 8, which is not larger than the allocated length, and yet calls
`clResizeFFTData 8`; when that call fails the plan is destroyed and the scratch pointer
is null. -/
theorem gpu_fft_dsp_resizes_within_allocation :
    x_shrunk.has_valid_device = true ∧ x_shrunk.new_device = -1 ∧
    x_shrunk.fft_data.dim_x = 8 ∧ x_shrunk.fft_size = 4 ∧
    (silence 16).s_n / 2 ≤ x_shrunk.fft_data.dim_x ∧
    Event.clResizeFFTData 8 ∈
      (gpu_fft_dsp inverseBuild cl_ok host_ok x_shrunk (silence 16) (silence 16)).events ∧
    x_shrunk.fft_data.plan = .live 8 ∧
    (gpu_fft_dsp inverseBuild cl_no_realloc host_ok x_shrunk (silence 16) (silence 16)).x.fft_data.plan
      = .released ∧
    (gpu_fft_dsp inverseBuild cl_no_realloc host_ok x_shrunk (silence 16) (silence 16)).x.fft_data.data_i
      = .null := by
  refine ⟨by decide, by decide, by decide, by decide, by decide, ?_, by decide, by decide, by decide⟩
  decide

/-- C10 at the failing input: on a valid session on device 2, the requests 1 and then 2
leave the request 1 pending (the second call returns early), and the next evaluation,
in which acquisition and build succeed, ends on device 1, not on the device 2 requested
last. -/
theorem attr_set_device_keeps_stale_request :
    (x_running forwardBuild).has_valid_device = true ∧ (x_running forwardBuild).cl_device = 2 ∧
    x_rerequested.new_device = 1 ∧
    (gpu_fft_dsp forwardBuild cl_ok host_ok x_rerequested (silence 16) (silence 16)).x.cl_device = 1 ∧
    (gpu_fft_dsp forwardBuild cl_ok host_ok x_rerequested (silence 16) (silence 16)).x.has_valid_device
      = true := by
  decide

/-- C6 at the failing input: in the inverse build, on a valid session whose buffer set is
allocated for 8 elements, an evaluation with a spectral input of 32 scalars in which
`clFFT_CreatePlan` fails for 16 points reports the error, keeps `has_valid_device` true and
schedules `gpu_fft_perform`, with the scratch buffer freed, the plan null, the device
buffer released, `dim.x` still 8 and `fft_size` 16; the scheduled call then dereferences
the freed scratch pointer. -/
theorem gpu_fft_dsp_schedules_after_failed_resize :
    (x_running inverseBuild).has_valid_device = true ∧
    (x_running inverseBuild).fft_data.dim_x = 8 ∧
    (x_running inverseBuild).fft_data.plan = .live 8 ∧
    (gpu_fft_dsp inverseBuild (cl_plan_limit 8) host_ok (x_running inverseBuild)
        (silence 32) (silence 16)).x.has_valid_device = true ∧
    (gpu_fft_dsp inverseBuild (cl_plan_limit 8) host_ok (x_running inverseBuild)
        (silence 32) (silence 16)).events =
      [Event.clResizeFFTData 16, Event.object_error "Error resizing memory!",
       Event.dsp_add (silence 16).s_vec 16 (silence 32).s_vec 32] ∧
    (gpu_fft_dsp inverseBuild (cl_plan_limit 8) host_ok (x_running inverseBuild)
        (silence 32) (silence 16)).x.fft_data =
      { dim_x := 8, data_i := .released, plan := .null, data_in := .released,
        data_out := .released } ∧
    (gpu_fft_dsp inverseBuild (cl_plan_limit 8) host_ok (x_running inverseBuild)
        (silence 32) (silence 16)).x.fft_size = 16 ∧
    gpu_fft_perform inverseBuild 28 (queue_returning 0 0 0)
      { x := (gpu_fft_dsp inverseBuild (cl_plan_limit 8) host_ok (x_running inverseBuild)
          (silence 32) (silence 16)).x
        time_sig := (silence 16).s_vec, time_sig_size := 16
        fft_sig := (silence 32).s_vec, w5 := 32 } = none := by
  decide

/-- In the forward build a size request on a valid session is never followed by a rebuild:
after a request for 16 points on a buffer set allocated for 8, the evaluation schedules
`gpu_fft_perform` on an output vector of 32 scalars (transform length 16) while the
buffer set still holds 8 elements. -/
theorem gpu_fft_dsp_forward_outgrows_buffer_set :
    (x_running forwardBuild).has_valid_device = true ∧
    (x_running forwardBuild).fft_data.dim_x = 8 ∧
    x_resized_forward.fft_size = 16 ∧
    (gpu_fft_dsp forwardBuild cl_ok host_ok x_resized_forward
        (silence 16) (silence 16)).x.has_valid_device = true ∧
    (∃ e ∈ (gpu_fft_dsp forwardBuild cl_ok host_ok x_resized_forward
        (silence 16) (silence 16)).events, e.isDspAdd = true) ∧
    (gpu_fft_dsp forwardBuild cl_ok host_ok x_resized_forward
        (silence 16) (silence 16)).sp1.s_n = 32 ∧
    (gpu_fft_dsp forwardBuild cl_ok host_ok x_resized_forward
        (silence 16) (silence 16)).x.fft_data.dim_x = 8 ∧
    (gpu_fft_dsp forwardBuild cl_ok host_ok x_resized_forward
        (silence 16) (silence 16)).x.fft_size = 16 := by
  decide

/-! ## Theorems on `gpu_fft_perform` -/

/-- A loop that stores `f j` at every index `j` of `[i, i + k)` stays inside a buffer that
has `i + k` elements and changes exactly those elements. -/
theorem forLoop_store {β : Type} (f : Nat → Option β) (body : Nat → List β → Option (List β))
    (hbody : ∀ j d, body j d = (f j).bind (store d j)) :
    ∀ (k i : Nat) (d : List β), i + k ≤ d.length →
      (∀ j, i ≤ j → j < i + k → (f j).isSome = true) →
      ∃ r, forLoop body i k d = some r ∧ r.length = d.length ∧
        ∀ j, r.get? j = if i ≤ j ∧ j < i + k then f j else d.get? j := by
  intro k
  induction k with
  | zero =>
    intro i d _ _
    refine ⟨d, rfl, rfl, ?_⟩
    intro j
    have : ¬ (i ≤ j ∧ j < i + 0) := by omega
    rw [if_neg this]
  | succ k ih =>
    intro i d hlen hf
    obtain ⟨v, hv⟩ := Option.isSome_iff_exists.1 (hf i (le_refl i) (by omega))
    have hi : i < d.length := by omega
    have hstep : body i d = some (d.set i v) := by
      rw [hbody, hv]
      simp [store, hi]
    obtain ⟨r, hr, hrl, hrg⟩ := ih (i + 1) (d.set i v) (by simp; omega)
      (fun j h1 h2 => hf j (by omega) (by omega))
    refine ⟨r, ?_, by simpa using hrl, ?_⟩
    · show (body i d).bind (forLoop body (i + 1) k) = some r
      rw [hstep]
      exact hr
    · intro j
      rw [hrg j]
      by_cases hji : j = i
      · subst hji
        have h1 : ¬ (j + 1 ≤ j ∧ j < j + 1 + k) := by omega
        have h2 : j ≤ j ∧ j < j + (k + 1) := by omega
        rw [if_neg h1, if_pos h2, hv]
        simp [hi]
      · by_cases hin : i + 1 ≤ j ∧ j < i + 1 + k
        · have h2 : i ≤ j ∧ j < i + (k + 1) := by omega
          rw [if_pos hin, if_pos h2]
        · have h2 : ¬ (i ≤ j ∧ j < i + (k + 1)) := by omega
          rw [if_neg hin, if_neg h2]
          simp [List.getElem?_set, Ne.symm hji]

/-- A run of `n` complex elements occupies `2 * n` scalars. -/
theorem interleave_length (l : List clFFT_Complex) : (interleave l).length = 2 * l.length := by
  induction l with
  | nil => rfl
  | cons c cs ih => simp [interleave, ih]; omega

/-- Scalar `2 * k` of a run is the real part of element `k`. -/
theorem interleave_get?_even (l : List clFFT_Complex) (k : Nat) :
    (interleave l).get? (2 * k) = (l.get? k).map (fun c => c.real) := by
  induction l generalizing k with
  | nil => simp [interleave]
  | cons c cs ih =>
    cases k with
    | zero => simp [interleave]
    | succ k =>
      have : 2 * (k + 1) = (2 * k) + 1 + 1 := by ring
      rw [this]
      simpa [interleave] using ih k

/-- Scalar `2 * k + 1` of a run is the imaginary part of element `k`. -/
theorem interleave_get?_odd (l : List clFFT_Complex) (k : Nat) :
    (interleave l).get? (2 * k + 1) = (l.get? k).map (fun c => c.imag) := by
  induction l generalizing k with
  | nil => simp [interleave]
  | cons c cs ih =>
    cases k with
    | zero => simp [interleave]
    | succ k =>
      have : 2 * (k + 1) + 1 = (2 * k + 1) + 1 + 1 := by ring
      rw [this]
      simpa [interleave] using ih k

/-- The padded input has `L` elements. -/
theorem zero_padded_length (input : List t_sample) (T L : Nat) :
    (zero_padded input T L).length = L := by
  simp [zero_padded]

/-- The spectral input has `L` elements. -/
theorem spectrum_length (input : List t_sample) (L : Nat) : (spectrum input L).length = L := by
  simp [spectrum]

/-- The byte size `fft_byte_size` covers `L` complex elements. -/
theorem byte_size_complex (L : Nat) : L * sizeof_clFFT_Complex / sizeof_clFFT_Complex = L := by
  simp [sizeof_clFFT_Complex]

/-- The byte size `fft_byte_size` covers `2 * L` samples. -/
theorem byte_size_samples (L : Nat) : L * sizeof_clFFT_Complex / sizeof_t_sample = 2 * L := by
  simp only [sizeof_clFFT_Complex, sizeof_t_sample]
  omega

/-- Lines 284-291 leave the padded input in the first `L` scratch elements. -/
theorem perform_copy_in_forward (b : Build) (w : PerformArgs) (d0 : List clFFT_Complex)
    (hb : b.FORWARD_EXTERNAL = true) (hL : w.w5 / 2 ≤ d0.length)
    (hT : w.time_sig_size ≤ w.w5 / 2) (hts : w.time_sig_size ≤ w.time_sig.length) :
    perform_copy_in b w d0 =
      some (zero_padded w.time_sig w.time_sig_size (w.w5 / 2) ++ d0.drop (w.w5 / 2)) := by
  obtain ⟨r1, h1, hl1, hg1⟩ := forLoop_store (fun _ => some (⟨0, 0⟩ : clFFT_Complex))
    (fun i d => store d i ⟨0, 0⟩) (fun _ _ => rfl) (w.w5 / 2) 0 d0 (by omega) (fun _ _ _ => rfl)
  obtain ⟨r2, h2, hl2, hg2⟩ := forLoop_store
    (fun i => (w.time_sig.get? i).map (fun v => (⟨v, 0⟩ : clFFT_Complex)))
    (fun i d => (w.time_sig.get? i).bind (fun v => store d i ⟨v, 0⟩))
    (fun j d => by dsimp only; cases w.time_sig.get? j <;> rfl)
    w.time_sig_size 0 r1 (by omega)
    (fun j _ hj => by
      have : j < w.time_sig.length := by omega
      simp [this])
  unfold perform_copy_in
  simp only [hb, if_true]
  rw [h1]
  show forLoop _ 0 w.time_sig_size r1 = _
  rw [h2]
  congr 1
  apply List.ext_get?
  intro j
  rw [hg2 j, hg1 j]
  by_cases hjT : j < w.time_sig_size
  · have hjL : j < w.w5 / 2 := by omega
    have hjs : j < w.time_sig.length := by omega
    rw [if_pos ⟨Nat.zero_le _, by omega⟩]
    simp [zero_padded, List.getElem?_append, hjL, hjT, hjs, List.getD_eq_getElem?_getD]
  · rw [if_neg (by omega)]
    by_cases hjL : j < w.w5 / 2
    · rw [if_pos ⟨Nat.zero_le _, by omega⟩]
      simp [zero_padded, List.getElem?_append, hjL, hjT]
    · rw [if_neg (by omega)]
      simp [zero_padded, List.getElem?_append, hjL]
      congr 1
      omega

/-- Line 293 leaves the spectral input in the first `L` scratch elements. -/
theorem perform_copy_in_inverse (b : Build) (w : PerformArgs) (d0 : List clFFT_Complex)
    (hb : b.FORWARD_EXTERNAL = false) (hL : w.w5 / 2 ≤ d0.length)
    (hfs : 2 * (w.w5 / 2) ≤ w.fft_sig.length) :
    perform_copy_in b w d0 = some (spectrum w.fft_sig (w.w5 / 2) ++ d0.drop (w.w5 / 2)) := by
  unfold perform_copy_in memcpy_to_complex
  simp only [hb, Bool.false_eq_true, if_false, byte_size_complex, byte_size_samples]
  rw [if_pos ⟨hL, hfs⟩]
  rfl

/-- C2: in a build with `FORWARD_EXTERNAL`, for a block with `time_sig_size ≤ L = w5 / 2`
whose vectors hold the stated numbers of samples and a live scratch buffer of at least `L`
elements, when the three device calls report success `gpu_fft_perform` returns, having
submitted `L` scratch elements of which element `i` is `(input[i], 0)` for
`i < time_sig_size` and `(0, 0)` above, and having written exactly the first `2 * L` output
scalars: scalar `2 * k` is the real and scalar `2 * k + 1` the imaginary part of element
`k` read back from the device. -/
theorem gpu_fft_perform_forward (b : Build) (sizeof_t_signal : Nat) (q : CLQueue)
    (w : PerformArgs) (d0 : List clFFT_Complex)
    (hb : b.FORWARD_EXTERNAL = true) (hd : w.x.fft_data.data_i = .live d0)
    (hL : w.w5 / 2 ≤ d0.length) (hT : w.time_sig_size ≤ w.w5 / 2)
    (hts : w.time_sig_size ≤ w.time_sig.length) (hfs : 2 * (w.w5 / 2) ≤ w.fft_sig.length)
    (hwr : 0 ≤ q.clEnqueueWriteBuffer (zero_padded w.time_sig w.time_sig_size (w.w5 / 2)))
    (hex : 0 ≤ q.clFFT_ExecuteInterleaved (zero_padded w.time_sig w.time_sig_size (w.w5 / 2)))
    (hrd : 0 ≤ (q.clEnqueueReadBuffer (zero_padded w.time_sig w.time_sig_size (w.w5 / 2))).1) :
    ∃ r, gpu_fft_perform b sizeof_t_signal q w = some r ∧
      r.submitted = zero_padded w.time_sig w.time_sig_size (w.w5 / 2) ∧
      r.submitted.length = w.w5 / 2 ∧
      (∀ i, i < w.time_sig_size →
        ∃ v, w.time_sig.get? i = some v ∧ r.submitted.get? i = some ⟨v, 0⟩) ∧
      (∀ i, w.time_sig_size ≤ i → i < w.w5 / 2 → r.submitted.get? i = some ⟨0, 0⟩) ∧
      r.fft_sig.length = w.fft_sig.length ∧
      (∀ k, k < w.w5 / 2 →
        r.fft_sig.get? (2 * k) = some ((q.clEnqueueReadBuffer r.submitted).2 k).real ∧
        r.fft_sig.get? (2 * k + 1) = some ((q.clEnqueueReadBuffer r.submitted).2 k).imag) ∧
      (∀ j, 2 * (w.w5 / 2) ≤ j → r.fft_sig.get? j = w.fft_sig.get? j) ∧
      r.time_sig = w.time_sig := by
  have hzl := zero_padded_length w.time_sig w.time_sig_size (w.w5 / 2)
  have htake : (zero_padded w.time_sig w.time_sig_size (w.w5 / 2) ++ d0.drop (w.w5 / 2)).take
      (w.w5 / 2) = zero_padded w.time_sig w.time_sig_size (w.w5 / 2) := by
    rw [List.take_append_of_le_length (by omega), List.take_of_length_le (by omega)]
  have hrun : gpu_fft_perform b sizeof_t_signal q w =
      perform_copy_out b w (zero_padded w.time_sig w.time_sig_size (w.w5 / 2))
        ((List.range (w.w5 / 2)).map
            (q.clEnqueueReadBuffer (zero_padded w.time_sig w.time_sig_size (w.w5 / 2))).2 ++
          (zero_padded w.time_sig w.time_sig_size (w.w5 / 2) ++ d0.drop (w.w5 / 2)).drop
            (w.w5 / 2)) := by
    unfold gpu_fft_perform
    simp only [hd]
    rw [perform_copy_in_forward b w d0 hb hL hT hts]
    simp only [Option.some_bind, htake]
    rw [if_neg (by omega), if_neg (by omega), if_neg (by omega)]
  have hout : ∀ s d2, (List.range (w.w5 / 2)).map
        (q.clEnqueueReadBuffer (zero_padded w.time_sig w.time_sig_size (w.w5 / 2))).2 ++ d2 = s →
      perform_copy_out b w (zero_padded w.time_sig w.time_sig_size (w.w5 / 2)) s =
      some ⟨{ w.x with fft_data := { w.x.fft_data with data_i := .live s } }, w.time_sig,
        interleave ((List.range (w.w5 / 2)).map
            (q.clEnqueueReadBuffer (zero_padded w.time_sig w.time_sig_size (w.w5 / 2))).2) ++
          w.fft_sig.drop (2 * (w.w5 / 2)),
        zero_padded w.time_sig w.time_sig_size (w.w5 / 2)⟩ := by
    intro s d2 hs
    unfold perform_copy_out memcpy_of_complex
    simp only [hb, if_true, byte_size_complex, byte_size_samples]
    have hsl : w.w5 / 2 ≤ s.length := by rw [← hs]; simp
    rw [if_pos ⟨hsl, hfs⟩]
    have : s.take (w.w5 / 2) = (List.range (w.w5 / 2)).map
        (q.clEnqueueReadBuffer (zero_padded w.time_sig w.time_sig_size (w.w5 / 2))).2 := by
      rw [← hs, List.take_append_of_le_length (by simp), List.take_of_length_le (by simp)]
    rw [this]
    rfl
  rw [hrun, hout _ _ rfl]
  refine ⟨_, rfl, rfl, hzl, ?_, ?_, ?_, ?_, ?_, rfl⟩
  · intro i hi
    have his : i < w.time_sig.length := by omega
    refine ⟨w.time_sig[i], by simp [his], ?_⟩
    have hiL : i < w.w5 / 2 := by omega
    simp [zero_padded, hiL, hi, his, List.getD_eq_getElem?_getD]
  · intro i hi hiL
    simp [zero_padded, hiL, Nat.not_lt.2 hi]
  · simp [interleave_length]
    omega
  · intro k hk
    dsimp only
    constructor
    · rw [List.get?_eq_getElem?, List.getElem?_append_left (by simp [interleave_length]; omega),
        ← List.get?_eq_getElem?, interleave_get?_even]
      simp [hk]
    · rw [List.get?_eq_getElem?, List.getElem?_append_left (by simp [interleave_length]; omega),
        ← List.get?_eq_getElem?, interleave_get?_odd]
      simp [hk]
  · intro j hj
    dsimp only
    rw [List.get?_eq_getElem?, List.getElem?_append_right (by simp [interleave_length]; omega)]
    simp [interleave_length]
    congr 1
    omega

/-- Witness for C2: three input samples, transform length 8, every device call succeeding. -/
theorem gpu_fft_perform_forward_witness :
    ∃ r, gpu_fft_perform forwardBuild 28 (queue_returning 0 0 0) block_forward = some r ∧
      r.submitted.length = 8 ∧
      r.submitted.get? 2 = some ⟨3, 0⟩ ∧ r.submitted.get? 3 = some ⟨0, 0⟩ ∧
      r.fft_sig.length = 16 := by
  obtain ⟨r, h1, _, h3, h4, h5, h6, _⟩ :=
    gpu_fft_perform_forward forwardBuild 28 (queue_returning 0 0 0) block_forward
      (List.replicate 8 ⟨0, 0⟩) rfl (by decide) (by decide) (by decide) (by decide)
      (by decide) (by decide) (by decide) (by decide)
  obtain ⟨v, hv1, hv2⟩ := h4 2 (by decide)
  have hv : v = 3 := by
    have : block_forward.time_sig.get? 2 = some 3 := by decide
    rw [this] at hv1
    exact (Option.some.inj hv1).symm
  subst hv
  exact ⟨r, h1, h3, hv2, h5 3 (by decide) (by decide), h6⟩

/-- The inverse direction on a block whose device calls succeed. -/
theorem gpu_fft_perform_inverse (b : Build) (sizeof_t_signal : Nat) (q : CLQueue)
    (w : PerformArgs) (d0 : List clFFT_Complex)
    (hb : b.FORWARD_EXTERNAL = false) (hd : w.x.fft_data.data_i = .live d0)
    (hL : w.w5 / 2 ≤ d0.length) (hfs : 2 * (w.w5 / 2) ≤ w.fft_sig.length)
    (hT : w.time_sig_size ≤ d0.length) (hts : w.time_sig_size ≤ w.time_sig.length)
    (hwr : 0 ≤ q.clEnqueueWriteBuffer (spectrum w.fft_sig (w.w5 / 2)))
    (hex : 0 ≤ q.clFFT_ExecuteInterleaved (spectrum w.fft_sig (w.w5 / 2)))
    (hrd : 0 ≤ (q.clEnqueueReadBuffer (spectrum w.fft_sig (w.w5 / 2))).1) :
    ∃ r d2, gpu_fft_perform b sizeof_t_signal q w = some r ∧
      r.submitted = spectrum w.fft_sig (w.w5 / 2) ∧
      r.x.fft_data.data_i = .live d2 ∧
      (∀ i, i < w.w5 / 2 → d2.get? i = some ((q.clEnqueueReadBuffer r.submitted).2 i)) ∧
      r.time_sig.length = w.time_sig.length ∧
      (∀ i, i < w.time_sig_size →
        ∃ c, d2.get? i = some c ∧
          r.time_sig.get? i = some (c.real * w.x.one_over_fft_size)) ∧
      (∀ j, w.time_sig_size ≤ j → r.time_sig.get? j = w.time_sig.get? j) ∧
      r.fft_sig = w.fft_sig := by
  have hzl := spectrum_length w.fft_sig (w.w5 / 2)
  have htake : (spectrum w.fft_sig (w.w5 / 2) ++ d0.drop (w.w5 / 2)).take (w.w5 / 2)
      = spectrum w.fft_sig (w.w5 / 2) := by
    rw [List.take_append_of_le_length (by omega), List.take_of_length_le (by omega)]
  have hrun : gpu_fft_perform b sizeof_t_signal q w =
      perform_copy_out b w (spectrum w.fft_sig (w.w5 / 2))
        ((List.range (w.w5 / 2)).map (q.clEnqueueReadBuffer (spectrum w.fft_sig (w.w5 / 2))).2 ++
          (spectrum w.fft_sig (w.w5 / 2) ++ d0.drop (w.w5 / 2)).drop (w.w5 / 2)) := by
    unfold gpu_fft_perform
    simp only [hd]
    rw [perform_copy_in_inverse b w d0 hb hL hfs]
    simp only [Option.some_bind, htake]
    rw [if_neg (by omega), if_neg (by omega), if_neg (by omega)]
  generalize hd2 : (List.range (w.w5 / 2)).map
      (q.clEnqueueReadBuffer (spectrum w.fft_sig (w.w5 / 2))).2 ++
        (spectrum w.fft_sig (w.w5 / 2) ++ d0.drop (w.w5 / 2)).drop (w.w5 / 2) = d2 at hrun
  have hd2l : d2.length = d0.length := by
    rw [← hd2]
    simp [hzl]
    omega
  obtain ⟨o, ho, hol, hog⟩ := forLoop_store
    (fun i => (d2.get? i).map (fun c => c.real * w.x.one_over_fft_size))
    (fun i t => (d2.get? i).bind (fun c => store t i (c.real * w.x.one_over_fft_size)))
    (fun j d => by dsimp only; cases d2.get? j <;> rfl)
    w.time_sig_size 0 w.time_sig (by omega)
    (fun j _ hj => by
      have : j < d2.length := by omega
      simp [this])
  have hout : perform_copy_out b w (spectrum w.fft_sig (w.w5 / 2)) d2 =
      some ⟨{ w.x with fft_data := { w.x.fft_data with data_i := .live d2 } }, o, w.fft_sig,
        spectrum w.fft_sig (w.w5 / 2)⟩ := by
    unfold perform_copy_out
    simp only [hb, Bool.false_eq_true, if_false]
    rw [ho]
    rfl
  rw [hrun, hout]
  refine ⟨_, d2, rfl, rfl, rfl, ?_, hol, ?_, ?_, rfl⟩
  · intro i hi
    dsimp only
    rw [← hd2, List.get?_eq_getElem?, List.getElem?_append_left (by simpa using hi)]
    simp [hi]
  · intro i hi
    have hid : i < d2.length := by omega
    refine ⟨d2[i], by simp [hid], ?_⟩
    dsimp only
    rw [hog i, if_pos ⟨Nat.zero_le _, by omega⟩]
    simp [hid]
  · intro j hj
    dsimp only
    rw [hog j, if_neg (by omega)]

/-- The object `x_running inverseBuild` has factor `1 / 8` for length 8. -/
theorem x_running_normalized : Normalized (x_running inverseBuild) := by
  intro _
  rfl

/-- C3: in the inverse build (`FORWARD_EXTERNAL` undefined, `INVERSE_EXTERNAL` defined),
(1) every `attr_set_fft_size` call with a long atom sets `fft_size` to the coerced length
and `one_over_fft_size` to `1 / fft_size`; (2) that relation is kept by every
`attr_set_fft_size`, `attr_set_device` and `gpu_fft_dsp`; (3) on an object with that
relation and `fft_size ≠ 0`, for a block whose buffers hold the stated numbers of elements
and whose three device calls succeed, `gpu_fft_perform` returns with
`output[i] = Re(scratch[i]) * (1 / fft_size)` for every `i < time_sig_size`, where
`scratch[i]` is element `i` read back from the device for every `i < L`, and with every
other output scalar unchanged. -/
theorem inverse_normalization (b : Build) (hf : b.FORWARD_EXTERNAL = false)
    (hi : b.INVERSE_EXTERNAL = true) :
    (∀ (x : t_gpu_fft) (argc v : Int), argc > 0 →
      (attr_set_fft_size b x argc (some (.A_LONG v))).2.1.fft_size
          = (nextPowerOf2 (uint_of_long v) : Nat) ∧
      (attr_set_fft_size b x argc (some (.A_LONG v))).2.1.one_over_fft_size
          = 1 / ((attr_set_fft_size b x argc (some (.A_LONG v))).2.1.fft_size : ℚ)) ∧
    (∀ (x : t_gpu_fft) (argc : Int) (argv : Option t_atom) (cl : OpenCL) (host : MaxHost)
        (sp0 sp1 : t_signal), Normalized x →
      Normalized (attr_set_fft_size b x argc argv).2.1 ∧
      Normalized (attr_set_device x argc argv).2.1 ∧
      Normalized (gpu_fft_dsp b cl host x sp0 sp1).x) ∧
    (∀ (sizeof_t_signal : Nat) (q : CLQueue) (w : PerformArgs) (d0 : List clFFT_Complex),
      Normalized w.x → w.x.fft_size ≠ 0 →
      w.x.fft_data.data_i = .live d0 →
      w.w5 / 2 ≤ d0.length → 2 * (w.w5 / 2) ≤ w.fft_sig.length →
      w.time_sig_size ≤ d0.length → w.time_sig_size ≤ w.time_sig.length →
      0 ≤ q.clEnqueueWriteBuffer (spectrum w.fft_sig (w.w5 / 2)) →
      0 ≤ q.clFFT_ExecuteInterleaved (spectrum w.fft_sig (w.w5 / 2)) →
      0 ≤ (q.clEnqueueReadBuffer (spectrum w.fft_sig (w.w5 / 2))).1 →
      ∃ r d2, gpu_fft_perform b sizeof_t_signal q w = some r ∧
        r.x.fft_data.data_i = .live d2 ∧
        (∀ i, i < w.w5 / 2 →
          d2.get? i = some ((q.clEnqueueReadBuffer (spectrum w.fft_sig (w.w5 / 2))).2 i)) ∧
        r.time_sig.length = w.time_sig.length ∧
        (∀ i, i < w.time_sig_size →
          ∃ c, d2.get? i = some c ∧
            r.time_sig.get? i = some (c.real * (1 / (w.x.fft_size : ℚ)))) ∧
        (∀ j, w.time_sig_size ≤ j → r.time_sig.get? j = w.time_sig.get? j)) := by
  refine ⟨?_, ?_, ?_⟩
  · intro x argc v hc
    obtain ⟨h1, h2⟩ := attr_set_fft_size_normalized b x argc v hi hc
    exact ⟨h1, by rw [h2, h1, Int.cast_natCast]⟩
  · intro x argc argv cl host sp0 sp1 hx
    refine ⟨attr_set_fft_size_keeps_normalized b x argc argv hi hx, ?_,
      gpu_fft_dsp_normalized b cl host x sp0 sp1 hi hx⟩
    have h1 : (attr_set_device x argc argv).2.1.fft_size = x.fft_size := by
      unfold attr_set_device
      split
      · split
        · split <;> rfl
        · rfl
      · rfl
    have h2 : (attr_set_device x argc argv).2.1.one_over_fft_size = x.one_over_fft_size := by
      unfold attr_set_device
      split
      · split
        · split <;> rfl
        · rfl
      · rfl
    unfold Normalized
    rw [h1, h2]
    exact hx
  · intro sz q w d0 hn hne hd hL hfs hT hts hwr hex hrd
    obtain ⟨r, d2, h1, h2, h3, h4, h5, h6, h7, _⟩ :=
      gpu_fft_perform_inverse b sz q w d0 hf hd hL hfs hT hts hwr hex hrd
    refine ⟨r, d2, h1, h3, ?_, h5, ?_, h7⟩
    · intro i hi
      rw [h4 i hi, h2]
    · intro i hi
      obtain ⟨c, hc1, hc2⟩ := h6 i hi
      exact ⟨c, hc1, by rw [hc2, hn hne]⟩

/-- Witness for C3: the block `block_inverse` on an object of transform length 8. -/
theorem inverse_normalization_witness :
    ∃ r d2, gpu_fft_perform inverseBuild 28 (queue_returning 0 0 0) block_inverse = some r ∧
      r.x.fft_data.data_i = .live d2 ∧
      (∀ i, i < 2 → ∃ c, d2.get? i = some c ∧ r.time_sig.get? i = some (c.real * (1 / 8))) := by
  obtain ⟨r, d2, h1, h2, _, _, h5, _⟩ :=
    (inverse_normalization inverseBuild rfl rfl).2.2 28 (queue_returning 0 0 0) block_inverse
      (List.replicate 8 ⟨0, 0⟩) x_running_normalized (by decide) (by decide) (by decide)
      (by decide) (by decide) (by decide) (by decide) (by decide) (by decide)
  exact ⟨r, d2, h1, h2, h5⟩

/-- The error path of a build with `FORWARD_EXTERNAL`: exactly the first `2 * L` output
scalars become zero and the object changes at most in the contents of its scratch buffer. -/
theorem gpu_fft_perform_forward_error (b : Build) (sizeof_t_signal : Nat) (q : CLQueue)
    (w : PerformArgs) (d0 : List clFFT_Complex)
    (hb : b.FORWARD_EXTERNAL = true) (hd : w.x.fft_data.data_i = .live d0)
    (hL : w.w5 / 2 ≤ d0.length) (hT : w.time_sig_size ≤ w.w5 / 2)
    (hts : w.time_sig_size ≤ w.time_sig.length) (hfs : 2 * (w.w5 / 2) ≤ w.fft_sig.length)
    (herr : ¬ (0 ≤ q.clEnqueueWriteBuffer (zero_padded w.time_sig w.time_sig_size (w.w5 / 2)) ∧
      0 ≤ q.clFFT_ExecuteInterleaved (zero_padded w.time_sig w.time_sig_size (w.w5 / 2)) ∧
      0 ≤ (q.clEnqueueReadBuffer (zero_padded w.time_sig w.time_sig_size (w.w5 / 2))).1)) :
    ∃ r, gpu_fft_perform b sizeof_t_signal q w = some r ∧
      r.fft_sig = List.replicate (2 * (w.w5 / 2)) 0 ++ w.fft_sig.drop (2 * (w.w5 / 2)) ∧
      r.time_sig = w.time_sig ∧
      r.x = { w.x with fft_data := { w.x.fft_data with data_i := r.x.fft_data.data_i } } := by
  have hzl := zero_padded_length w.time_sig w.time_sig_size (w.w5 / 2)
  have htake : (zero_padded w.time_sig w.time_sig_size (w.w5 / 2) ++ d0.drop (w.w5 / 2)).take
      (w.w5 / 2) = zero_padded w.time_sig w.time_sig_size (w.w5 / 2) := by
    rw [List.take_append_of_le_length (by omega), List.take_of_length_le (by omega)]
  have hzero : ∀ d, perform_zero b sizeof_t_signal w d =
      some ⟨{ w.x with fft_data := { w.x.fft_data with data_i := .live d } }, w.time_sig,
        List.replicate (2 * (w.w5 / 2)) 0 ++ w.fft_sig.drop (2 * (w.w5 / 2)),
        d.take (w.w5 / 2)⟩ := by
    intro d
    unfold perform_zero memset_zero
    simp only [hb, if_true, byte_size_samples]
    rw [if_pos hfs]
    rfl
  have hrun : gpu_fft_perform b sizeof_t_signal q w =
      perform_zero b sizeof_t_signal w
        (zero_padded w.time_sig w.time_sig_size (w.w5 / 2) ++ d0.drop (w.w5 / 2)) := by
    unfold gpu_fft_perform
    simp only [hd]
    rw [perform_copy_in_forward b w d0 hb hL hT hts]
    simp only [Option.some_bind, htake]
    by_cases h1 : q.clEnqueueWriteBuffer (zero_padded w.time_sig w.time_sig_size (w.w5 / 2)) < 0
    · rw [if_pos h1]
    · rw [if_neg h1]
      by_cases h2 :
          q.clFFT_ExecuteInterleaved (zero_padded w.time_sig w.time_sig_size (w.w5 / 2)) < 0
      · rw [if_pos h2]
      · rw [if_neg h2]
        by_cases h3 :
            (q.clEnqueueReadBuffer (zero_padded w.time_sig w.time_sig_size (w.w5 / 2))).1 < 0
        · rw [if_pos h3]
        · exact absurd ⟨by omega, by omega, by omega⟩ herr
  rw [hrun, hzero]
  exact ⟨_, rfl, rfl, rfl, rfl⟩

/-- The error path of a build without `FORWARD_EXTERNAL`: the first
`time_sig_size * sizeof(t_signal) / sizeof(t_sample)` scalars at the output pointer become
zero, so with `sizeof(t_signal) ≥ 8` the scalar that follows the output vector is
overwritten. -/
theorem gpu_fft_perform_inverse_error (b : Build) (sizeof_t_signal : Nat) (q : CLQueue)
    (w : PerformArgs) (d0 : List clFFT_Complex)
    (hb : b.FORWARD_EXTERNAL = false) (hd : w.x.fft_data.data_i = .live d0)
    (hL : w.w5 / 2 ≤ d0.length) (hfs : 2 * (w.w5 / 2) ≤ w.fft_sig.length)
    (hmem : w.time_sig_size * sizeof_t_signal / sizeof_t_sample ≤ w.time_sig.length)
    (hsz : 8 ≤ sizeof_t_signal) (hpos : 1 ≤ w.time_sig_size)
    (herr : q.clEnqueueWriteBuffer (spectrum w.fft_sig (w.w5 / 2)) < 0) :
    ∃ r, gpu_fft_perform b sizeof_t_signal q w = some r ∧
      r.time_sig = List.replicate (w.time_sig_size * sizeof_t_signal / sizeof_t_sample) 0 ++
        w.time_sig.drop (w.time_sig_size * sizeof_t_signal / sizeof_t_sample) ∧
      r.time_sig.get? w.time_sig_size = some 0 := by
  have hzl := spectrum_length w.fft_sig (w.w5 / 2)
  have htake : (spectrum w.fft_sig (w.w5 / 2) ++ d0.drop (w.w5 / 2)).take (w.w5 / 2)
      = spectrum w.fft_sig (w.w5 / 2) := by
    rw [List.take_append_of_le_length (by omega), List.take_of_length_le (by omega)]
  have hrun : gpu_fft_perform b sizeof_t_signal q w =
      perform_zero b sizeof_t_signal w
        (spectrum w.fft_sig (w.w5 / 2) ++ d0.drop (w.w5 / 2)) := by
    unfold gpu_fft_perform
    simp only [hd]
    rw [perform_copy_in_inverse b w d0 hb hL hfs]
    simp only [Option.some_bind, htake]
    rw [if_pos herr]
  have hzero : ∀ d, perform_zero b sizeof_t_signal w d =
      some ⟨{ w.x with fft_data := { w.x.fft_data with data_i := .live d } },
        List.replicate (w.time_sig_size * sizeof_t_signal / sizeof_t_sample) 0 ++
          w.time_sig.drop (w.time_sig_size * sizeof_t_signal / sizeof_t_sample),
        w.fft_sig, d.take (w.w5 / 2)⟩ := by
    intro d
    unfold perform_zero memset_zero
    simp only [hb, Bool.false_eq_true, if_false]
    rw [if_pos hmem]
    rfl
  rw [hrun, hzero]
  refine ⟨_, rfl, rfl, ?_⟩
  dsimp only
  have hlt : w.time_sig_size < w.time_sig_size * sizeof_t_signal / sizeof_t_sample := by
    have h8 : w.time_sig_size * 8 ≤ w.time_sig_size * sizeof_t_signal :=
      Nat.mul_le_mul_left _ hsz
    have : w.time_sig_size * 8 / 4 ≤ w.time_sig_size * sizeof_t_signal / 4 :=
      Nat.div_le_div_right h8
    simp only [sizeof_t_sample]
    omega
  rw [List.get?_eq_getElem?, List.getElem?_append_left (by simpa using hlt)]
  simp [hlt]

/-- C4 at the failing input: in the inverse build with `sizeof(t_signal) = 28`, on a block
whose output vector has two samples and whose `clEnqueueWriteBuffer` fails, the error
path zeroes fourteen scalars: the twelve scalars that follow the output vector in memory
(value 7 before the call) are overwritten. -/
theorem gpu_fft_perform_inverse_error_overruns :
    ∃ r, gpu_fft_perform inverseBuild 28 (queue_returning (-1) 0 0) block_inverse = some r ∧
      block_inverse.time_sig_size = 2 ∧
      block_inverse.time_sig.get? 2 = some 7 ∧ block_inverse.time_sig.get? 13 = some 7 ∧
      r.time_sig = List.replicate 14 0 ∧
      r.time_sig.get? 2 = some 0 ∧ r.time_sig.get? 13 = some 0 := by
  refine ⟨_, rfl, ?_⟩
  decide

end GpuFft
